import Mathlib

/-!
# snap-vault: the images service and the response pipeline

A shallow embedding of `services/images/service.go`, and further down of
`cmd/api/encode.go`.  The service sits between the web
handlers and the store.  The store is an interface in the source; here it is a record of
functions over a store state, and every theorem holds for all such records.  Every call
the service makes on the store is logged, so that statements about which store calls are
made, and with which arguments, can be written down.

Go results `(value, error)` are pairs whose second component is `none` for a nil error.
Go slices are lists, the nil slice being the empty list.  `int64` identifiers are
integers: the service only compares them.
-/

namespace SnapVault

/-! ## Data model -/

/-- Modelled from the spec: `store.Image`, declared in the store package; its fields are
those of the data model (identity, parent gallery, owner, title, caption, content type
and published flag).  The binary payload is not part of the record.  The defaults are
Go's zero values, so `{}` is `store.Image{}`. -/
structure Image where
  ID : Int := 0
  GalleryID : Int := 0
  Title : String := ""
  Caption : String := ""
  UserID : Int := 0
  ContentType : String := ""
  Published : Bool := false
  deriving DecidableEq, Repr

/-- Modelled from the spec: `store.Gallery`, declared in the store package (identity,
owning user and published flag). -/
structure Gallery where
  ID : Int := 0
  UserID : Int := 0
  Published : Bool := false
  deriving DecidableEq, Repr

/-- Modelled from the spec: `filters.Input`, the filter of a list request.  The service
only forwards it to the store, so its content is left uninterpreted. -/
structure Input where
  raw : List Int := []
  deriving DecidableEq, Repr

/-- Modelled from the spec: `filters.Meta`, the pagination metadata of a list result.
The service only forwards it; `{}` is `filters.Meta{}`. -/
structure Meta where
  raw : List Int := []
  deriving DecidableEq, Repr

/-- Modelled from the spec: the identified user of the auth accessor, `{User{ID}}`. -/
structure User where
  ID : Int := 0
  deriving DecidableEq, Repr

/-- Modelled from the spec: the caller identity returned by the auth accessor. -/
structure AuthData where
  User : User := {}
  deriving DecidableEq, Repr

/-- The request context, as far as the service reads it: the authenticated identity,
absent for an anonymous call. -/
structure Context where
  auth : Option AuthData := none
  deriving DecidableEq, Repr

/-- Modelled from the spec: `store.ContextGetAuth`, a lookup on the request context
returning `{User{ID}}` or an empty value. -/
def ContextGetAuth (ctx : Context) : AuthData :=
  match ctx.auth with
  | some authData => authData
  | none => {}

/-! ## Errors -/

/-- Modelled from the spec: the value built by `validator.New` and `AddError`, a
structured validation failure carrying field-level messages. -/
structure Validator where
  Errors : List (String × String) := []
  deriving DecidableEq, Repr

/-- Modelled from the spec: `validator.New`, a validation failure with no entry yet. -/
def Validator.New : Validator := {}

/-- Modelled from the spec: `AddError`, recording a message for a field. -/
def Validator.AddError (v : Validator) (key message : String) : Validator :=
  { v with Errors := v.Errors ++ [(key, message)] }

/-- Go error values.  The four sentinels are the variables of the store package; a
`Validator` is returned as an error by `Insert`; `New text` is an error without a cause
(`errors.New`); `Wrap text err` is an error with message `text` whose `Unwrap` is `err`
(`fmt.Errorf` with `%w`); `OpError text` is a network error, a `*net.OpError` with
message `text`. -/
inductive Err where
  | ErrRecordNotFound
  | ErrForbidden
  | ErrEditConflict
  | ErrEmptyBytes
  | Validation (v : Validator)
  | New (text : String)
  | Wrap (text : String) (err : Err)
  | OpError (text : String)
  deriving DecidableEq, Repr

/-- The messages of the error values whose declarations are outside the service: the
`Error()` text of each sentinel and of a validation failure. -/
structure Messages where
  ErrRecordNotFound : String
  ErrForbidden : String
  ErrEditConflict : String
  ErrEmptyBytes : String
  Validation : Validator → String

/-- The method `err.Error()`. -/
def Err.Error (msgs : Messages) : Err → String
  | .ErrRecordNotFound => msgs.ErrRecordNotFound
  | .ErrForbidden => msgs.ErrForbidden
  | .ErrEditConflict => msgs.ErrEditConflict
  | .ErrEmptyBytes => msgs.ErrEmptyBytes
  | .Validation v => msgs.Validation v
  | .New text => text
  | .Wrap text _ => text
  | .OpError text => text

/-- The function `errors.Is(err, target)`: `err` or an error in its `Unwrap` chain equals
`target`. -/
def errors.Is : Err → Err → Bool
  | .Wrap text inner, target => decide (Err.Wrap text inner = target) || errors.Is inner target
  | err, target => decide (err = target)

/-- The function `errors.As(err, &netErr)` for `netErr` of type `*net.OpError`: `err` or
an error in its `Unwrap` chain is a network error. -/
def errors.AsOpError : Err → Bool
  | .OpError _ => true
  | .Wrap _ inner => errors.AsOpError inner
  | _ => false

/-- Whether `sub` is an initial segment of the character list. -/
def hasPrefixChars : List Char → List Char → Bool
  | _, [] => true
  | [], _ :: _ => false
  | c :: cs, d :: ds => decide (c = d) && hasPrefixChars cs ds

/-- Whether `sub` occurs in the character list. -/
def containsChars : List Char → List Char → Bool
  | [], sub => hasPrefixChars [] sub
  | c :: cs, sub => hasPrefixChars (c :: cs) sub || containsChars cs sub

/-- The function `strings.Contains(s, substr)`.  Go compares bytes; on valid UTF-8 an
occurrence of bytes is an occurrence of characters. -/
def strings.Contains (s substr : String) : Bool :=
  containsChars s.toList substr.toList

/-! ## Byte streams -/

/-- A byte source (`io.Reader`): the bytes it yields and the error that ends it, `none`
for a clean end of stream. -/
structure Reader where
  bytes : List Nat := []
  fail : Option Err := none
  deriving DecidableEq, Repr

/-- A byte source with a release hook (`io.ReadCloser`): `closeErr` is what `Close`
returns. -/
structure ReadCloser extends Reader where
  closeErr : Option Err := none
  deriving DecidableEq, Repr

/-! ## The store interface -/

/-- The `Images` part of the store interface, over a store state `σ`.  A method that
fails returns its error and no value (Go's convention of zero values beside an error).
The fetch methods only observe the state; `Insert`, `Update` and `Delete` also return
the state they leave. -/
structure ImagesStore (σ : Type) where
  Get : σ → Int → Except Err Image
  GetAllPublic : σ → Input → Except Err (List Image × Meta)
  GetAllForGallery : σ → Int → Input → Except Err (List Image × Meta)
  GetReader : σ → Int → Except Err ReadCloser
  Insert : σ → Reader → Image → Except Err Image × σ
  Update : σ → Image → Except Err Image × σ
  Delete : σ → Int → Option Err × σ

/-- The `Galleries` part of the store interface, as far as the service uses it. -/
structure GalleriesStore (σ : Type) where
  Get : σ → Int → Except Err Gallery

/-- The aggregate `store.Store` handle. -/
structure Store (σ : Type) where
  Images : ImagesStore σ
  Galleries : GalleriesStore σ

/-- A call made on the store, with its arguments. -/
inductive Call where
  | GalleriesGet (id : Int)
  | ImagesGet (id : Int)
  | ImagesGetAllPublic (filter : Input)
  | ImagesGetAllForGallery (galleryID : Int) (filter : Input)
  | ImagesGetReader (id : Int)
  | ImagesInsert (reader : Reader) (image : Image)
  | ImagesUpdate (image : Image)
  | ImagesDelete (id : Int)
  deriving DecidableEq, Repr

/-- Whether a call is one of the three mutating calls. -/
def Call.isMutation : Call → Bool
  | .ImagesInsert _ _ => true
  | .ImagesUpdate _ => true
  | .ImagesDelete _ => true
  | _ => false

/-- What a service operation runs in: the store state and the log of the store calls
made so far, oldest first. -/
structure World (σ : Type) where
  state : σ
  calls : List Call := []

variable {σ : Type}

/-- Appends a call to the log. -/
def World.log (w : World σ) (c : Call) : World σ :=
  { w with calls := w.calls ++ [c] }

/-- The call `Store.Galleries.Get(id)`. -/
def Store.galleriesGet (s : Store σ) (id : Int) (w : World σ) : Except Err Gallery × World σ :=
  (s.Galleries.Get w.state id, w.log (.GalleriesGet id))

/-- The call `Store.Images.Get(id)`. -/
def Store.imagesGet (s : Store σ) (id : Int) (w : World σ) : Except Err Image × World σ :=
  (s.Images.Get w.state id, w.log (.ImagesGet id))

/-- The call `Store.Images.GetAllPublic(filter)`. -/
def Store.imagesGetAllPublic (s : Store σ) (filter : Input) (w : World σ) :
    Except Err (List Image × Meta) × World σ :=
  (s.Images.GetAllPublic w.state filter, w.log (.ImagesGetAllPublic filter))

/-- The call `Store.Images.GetAllForGallery(galleryID, filter)`. -/
def Store.imagesGetAllForGallery (s : Store σ) (galleryID : Int) (filter : Input) (w : World σ) :
    Except Err (List Image × Meta) × World σ :=
  (s.Images.GetAllForGallery w.state galleryID filter,
    w.log (.ImagesGetAllForGallery galleryID filter))

/-- The call `Store.Images.GetReader(id)`. -/
def Store.imagesGetReader (s : Store σ) (id : Int) (w : World σ) :
    Except Err ReadCloser × World σ :=
  (s.Images.GetReader w.state id, w.log (.ImagesGetReader id))

/-- The call `Store.Images.Insert(reader, image)`. -/
def Store.imagesInsert (s : Store σ) (reader : Reader) (image : Image) (w : World σ) :
    Except Err Image × World σ :=
  ((s.Images.Insert w.state reader image).1,
    { state := (s.Images.Insert w.state reader image).2,
      calls := w.calls ++ [.ImagesInsert reader image] })

/-- The call `Store.Images.Update(image)`. -/
def Store.imagesUpdate (s : Store σ) (image : Image) (w : World σ) : Except Err Image × World σ :=
  ((s.Images.Update w.state image).1,
    { state := (s.Images.Update w.state image).2, calls := w.calls ++ [.ImagesUpdate image] })

/-- The call `Store.Images.Delete(id)`. -/
def Store.imagesDelete (s : Store σ) (id : Int) (w : World σ) : Option Err × World σ :=
  ((s.Images.Delete w.state id).1,
    { state := (s.Images.Delete w.state id).2, calls := w.calls ++ [.ImagesDelete id] })

/-! ## The service -/

/-- The type `ImagesService`. -/
structure ImagesService (σ : Type) where
  Store : Store σ

/-- The method `ImagesService.ListAllPublic`. -/
def ImagesService.ListAllPublic (is : ImagesService σ) (_ctx : Context) (filter : Input)
    (w : World σ) : (List Image × Meta × Option Err) × World σ :=
  match is.Store.imagesGetAllPublic filter w with
  | (.error err, w) => (([], {}, some err), w)
  | (.ok (images, metadata), w) => ((images, metadata, none), w)

/-- The method `ImagesService.ListForGallery`. -/
def ImagesService.ListForGallery (is : ImagesService σ) (ctx : Context) (public : Bool)
    (galleryID : Int) (filter : Input) (w : World σ) :
    (List Image × Meta × Option Err) × World σ :=
  let authData := ContextGetAuth ctx
  match is.Store.galleriesGet galleryID w with
  | (.error err, w) =>
    if errors.Is err .ErrRecordNotFound then (([], {}, some .ErrRecordNotFound), w)
    else (([], {}, some err), w)
  | (.ok gallery, w) =>
    -- what follows the visibility check
    let list :=
      match is.Store.imagesGetAllForGallery galleryID filter w with
      | (.error err, w) => (([], {}, some err), w)
      | (.ok (images, metadata), w) => ((images, metadata, none), w)
    if public then
      if !gallery.Published then (([], {}, some .ErrForbidden), w) else list
    else
      if authData.User.ID ≠ gallery.UserID then (([], {}, some .ErrForbidden), w) else list

/-- The method `ImagesService.Get`. -/
def ImagesService.Get (is : ImagesService σ) (ctx : Context) (public : Bool) (imageID : Int)
    (w : World σ) : (Image × Option Err) × World σ :=
  let authData := ContextGetAuth ctx
  match is.Store.imagesGet imageID w with
  | (.error err, w) => (({}, some err), w)
  | (.ok image, w) =>
    if public then
      if !image.Published then (({}, some .ErrForbidden), w) else ((image, none), w)
    else
      if authData.User.ID ≠ image.UserID then (({}, some .ErrForbidden), w)
      else ((image, none), w)

/-- The method `ImagesService.Download`; a nil reader is `none`. -/
def ImagesService.Download (is : ImagesService σ) (ctx : Context) (public : Bool)
    (imageID : Int) (w : World σ) : (Image × Option ReadCloser × Option Err) × World σ :=
  match is.Store.imagesGet imageID w with
  | (.error err, w) => (({}, none, some err), w)
  | (.ok image, w) =>
    -- what follows the visibility check
    let read :=
      match is.Store.imagesGetReader imageID w with
      | (.error err, w) =>
        if errors.Is err .ErrRecordNotFound then (({}, none, some .ErrEditConflict), w)
        else (({}, none, some err), w)
      | (.ok readCloser, w) => ((image, some readCloser, none), w)
    if public then
      if !image.Published then (({}, none, some .ErrForbidden), w) else read
    else
      let authData := ContextGetAuth ctx
      if authData.User.ID ≠ image.UserID then (({}, none, some .ErrForbidden), w) else read

/-- The method `ImagesService.Insert`. -/
def ImagesService.Insert (msgs : Messages) (is : ImagesService σ) (ctx : Context)
    (reader : Reader) (image : Image) (w : World σ) : (Image × Option Err) × World σ :=
  let authData := ContextGetAuth ctx
  match is.Store.galleriesGet image.GalleryID w with
  | (.error err, w) =>
    if errors.Is err .ErrRecordNotFound then (({}, some .ErrRecordNotFound), w)
    else (({}, some err), w)
  | (.ok gallery, w) =>
    if gallery.UserID ≠ authData.User.ID then (({}, some .ErrForbidden), w)
    else
      match is.Store.imagesInsert reader
          { GalleryID := image.GalleryID
            Title := image.Title
            Caption := image.Caption
            UserID := authData.User.ID
            ContentType := image.ContentType } w with
      | (.error err, w) =>
        if strings.Contains (err.Error msgs) "image_to_galleries_fk" then
          (({}, some .ErrEditConflict), w)
        else if errors.Is err .ErrEmptyBytes then
          let v := Validator.New
          let v := v.AddError "body" "no bytes in body"
          (({}, some (.Validation v)), w)
        else (({}, some err), w)
      | (.ok image, w) => ((image, none), w)

/-- The method `ImagesService.Update`. -/
def ImagesService.Update (msgs : Messages) (is : ImagesService σ) (ctx : Context)
    (image : Image) (w : World σ) : (Image × Option Err) × World σ :=
  let authData := ContextGetAuth ctx
  match is.Store.imagesGet image.ID w with
  | (.error err, w) =>
    if errors.Is err .ErrRecordNotFound then (({}, some .ErrRecordNotFound), w)
    else (({}, some err), w)
  | (.ok oldImage, w) =>
    if oldImage.UserID ≠ authData.User.ID then (({}, some .ErrForbidden), w)
    else
      let oldImage := { oldImage with Title := image.Title }
      let oldImage := { oldImage with Caption := image.Caption }
      match is.Store.imagesUpdate oldImage w with
      | (.error err, w) =>
        if strings.Contains (err.Error msgs) "image_to_galleries_fk" then
          (({}, some .ErrEditConflict), w)
        else (({}, some err), w)
      | (.ok image, w) => ((image, none), w)

/-- The method `ImagesService.Delete`. -/
def ImagesService.Delete (is : ImagesService σ) (ctx : Context) (imageID : Int)
    (w : World σ) : (Image × Option Err) × World σ :=
  let authData := ContextGetAuth ctx
  match is.Store.imagesGet imageID w with
  | (.error err, w) =>
    if errors.Is err .ErrRecordNotFound then (({}, some .ErrRecordNotFound), w)
    else (({}, some err), w)
  | (.ok image, w) =>
    if image.UserID ≠ authData.User.ID then (({}, some .ErrForbidden), w)
    else
      match is.Store.imagesDelete imageID w with
      | (some err, w) =>
        if errors.Is err .ErrRecordNotFound then (({}, some .ErrRecordNotFound), w)
        else (({}, some err), w)
      | (none, w) => ((image, none), w)

/-! ## A store in memory

A small implementation of the store interface, on which the theorems below are
instantiated. -/

/-- The state of the store in memory: its galleries, its image records and the binary
content kept for an image identifier. -/
structure Mem where
  galleries : List Gallery := []
  images : List Image := []
  blobs : List (Int × List Nat) := []
  deriving DecidableEq, Repr

/-- The store in memory.  `emptyErr` is the error its `Insert` reports for a payload of
no bytes; a record whose gallery is missing violates the constraint
`image_to_galleries_fk`. -/
def memStoreWith (emptyErr : Err) : Store Mem where
  Galleries :=
    { Get := fun m id =>
        match m.galleries.find? (fun g => decide (g.ID = id)) with
        | some g => .ok g
        | none => .error .ErrRecordNotFound }
  Images :=
    { Get := fun m id =>
        match m.images.find? (fun i => decide (i.ID = id)) with
        | some i => .ok i
        | none => .error .ErrRecordNotFound
      GetAllPublic := fun m _ => .ok (m.images.filter (fun i => i.Published), {})
      GetAllForGallery := fun m galleryID _ =>
        .ok (m.images.filter (fun i => decide (i.GalleryID = galleryID)), {})
      GetReader := fun m id =>
        match m.blobs.find? (fun b => decide (b.1 = id)) with
        | some b => .ok { bytes := b.2 }
        | none => .error .ErrRecordNotFound
      Insert := fun m reader image =>
        if reader.bytes = [] then (.error emptyErr, m)
        else if m.galleries.all (fun g => decide (g.ID ≠ image.GalleryID)) then
          (.error (.New "insert on images violates foreign key constraint image_to_galleries_fk"), m)
        else
          let stored := { image with ID := (m.images.length : Int) + 1 }
          (.ok stored,
            { m with images := m.images ++ [stored]
                     blobs := m.blobs ++ [(stored.ID, reader.bytes)] })
      Update := fun m image =>
        if m.images.any (fun i => decide (i.ID = image.ID)) then
          (.ok image,
            { m with images := m.images.map (fun i => if i.ID = image.ID then image else i) })
        else (.error .ErrRecordNotFound, m)
      Delete := fun m id =>
        if m.images.any (fun i => decide (i.ID = id)) then
          (none,
            { m with images := m.images.filter (fun i => decide (i.ID ≠ id))
                     blobs := m.blobs.filter (fun b => decide (b.1 ≠ id)) })
        else (some .ErrRecordNotFound, m) }

/-- The store in memory, reporting the sentinel `ErrEmptyBytes` for an empty payload. -/
def memStore : Store Mem := memStoreWith .ErrEmptyBytes

/-- An error that wraps `ErrEmptyBytes` and whose message names the gallery constraint. -/
def wrappedEmptyBytes : Err :=
  .Wrap "insert image (image_to_galleries_fk holds): no bytes" .ErrEmptyBytes

/-- The service over the store in memory. -/
def memService : ImagesService Mem := { Store := memStore }

/-- Messages for the sentinels, for the concrete instances. -/
def sampleMessages : Messages where
  ErrRecordNotFound := "record not found"
  ErrForbidden := "forbidden"
  ErrEditConflict := "edit conflict"
  ErrEmptyBytes := "no bytes"
  Validation := fun _ => "validation error"

/-- A store state: user 1 owns gallery 10 (private) and gallery 11 (published); image 100
is private, image 101 is published, both in gallery 10 and owned by user 1; only image
101 has binary content. -/
def sampleMem : Mem where
  galleries := [{ ID := 10, UserID := 1 }, { ID := 11, UserID := 1, Published := true }]
  images :=
    [ { ID := 100, GalleryID := 10, Title := "dawn", UserID := 1, ContentType := "image/png" },
      { ID := 101, GalleryID := 10, Title := "dusk", UserID := 1, ContentType := "image/png",
        Published := true } ]
  blobs := [(101, [137, 80, 78, 71])]

/-- The world the concrete instances start from: `sampleMem` and an empty call log. -/
def sampleWorld : World Mem := { state := sampleMem }

/-- The context of the authenticated user with the given identifier. -/
def ctxOf (userID : Int) : Context := { auth := some { User := { ID := userID } } }

/-- The context of an anonymous call. -/
def ctxAnonymous : Context := {}

/-- The store in memory with writes that fail: `Insert`, `Update` and `Delete` report the
given errors and leave the state as it is, as when the database rejects the statement. -/
def memStoreFailing (eInsert eUpdate eDelete : Err) : Store Mem :=
  { memStore with
    Images :=
      { memStore.Images with
        Insert := fun m _ _ => (.error eInsert, m)
        Update := fun m _ => (.error eUpdate, m)
        Delete := fun m _ => (some eDelete, m) } }

/-- Modelled from the spec: the store's `Images.GetAllPublic`, which is not among the
sources.  Of the stored images it returns those any caller may see, that is those whose
`Published` flag is true; `page` stands for the selection the filter makes among them
and for the metadata it computes. -/
def Mem.GetAllPublic (page : Input → List Image → List Image × Meta) (m : Mem)
    (filter : Input) : Except Err (List Image × Meta) :=
  .ok (page filter (m.images.filter (fun i => i.Published)))

/-- The store in memory with `Mem.GetAllPublic` as its `Images.GetAllPublic`. -/
def memStorePaged (page : Input → List Image → List Image × Meta) : Store Mem :=
  { memStore with Images := { memStore.Images with GetAllPublic := Mem.GetAllPublic page } }

/-- A page function: the filter gives the number of images to return; without one, all
are returned. -/
def samplePage (filter : Input) (images : List Image) : List Image × Meta :=
  match filter.raw with
  | [] => (images, { raw := [images.length] })
  | n :: _ => (images.take n.toNat, { raw := [images.length] })

/-- The error of a store whose database reports a violated gallery constraint. -/
def fkViolation : Err :=
  .New "insert or update on table images violates foreign key constraint image_to_galleries_fk"

/-- The error of a store that lost its connection to the database. -/
def connectionLost : Err := .New "connection refused"

/-! ## JSON encoding

The part of Go's `encoding/json` that `writeJSON` relies on, for the values a field
mapping can hold here: null, booleans, integers, strings, slices, maps with string
keys, and values of a type that cannot be encoded. -/

/-- A Go value stored in an `interface{}`.  `null` is the nil interface, and likewise a
nil slice or map, which are encoded alike; `array` is a non-nil slice and `object` a
non-nil map with string keys, one entry per key;
`unsupported kind` is a value of a type `kind` that has no JSON encoding, such as a
channel or a function. -/
inductive Value where
  | null
  | bool (b : Bool)
  | int (n : Int)
  | str (s : String)
  | array (xs : List Value)
  | object (fields : List (String × Value))
  | unsupported (kind : String)
  deriving Repr

/-- The type `env`, `map[string]interface{}`: `nil` is the nil map, which `writeJSON`
accepts like any other; `entries` is a non-nil map, with one entry per key. -/
inductive env where
  | nil
  | entries (fields : List (String × Value))
  deriving Repr

/-- A mapping as the value the encoder receives: a nil map is encoded like a nil
interface, as `null`, and a non-nil map as an object. -/
def env.value : env → Value
  | .nil => .null
  | .entries fields => .object fields

/-- The hexadecimal digit of a number below sixteen. -/
def hexDigit (n : Nat) : Char :=
  "0123456789abcdef".toList.getD n '0'

/-- How the encoder writes one character of a string: the quote and the backslash are
escaped, newline, carriage return and tab are written `\n`, `\r` and `\t`, the other
control characters `\u00XX`, and `<`, `>`, `&`, U+2028 and U+2029 `\uXXXX` (the encoder
escapes for HTML by default). -/
def json.escapeChar (c : Char) : List Char :=
  if c = '"' then ['\\', '"']
  else if c = '\\' then ['\\', '\\']
  else if c = '\n' then ['\\', 'n']
  else if c = '\r' then ['\\', 'r']
  else if c = '\t' then ['\\', 't']
  else if c.toNat < 32 then
    ['\\', 'u', '0', '0', hexDigit (c.toNat / 16), hexDigit (c.toNat % 16)]
  else if c = '<' then "\\u003c".toList
  else if c = '>' then "\\u003e".toList
  else if c = '&' then "\\u0026".toList
  else if c.toNat = 0x2028 then "\\u2028".toList
  else if c.toNat = 0x2029 then "\\u2029".toList
  else [c]

/-- A string as a JSON string literal. -/
def json.quoted (s : String) : List Char :=
  '"' :: (s.toList.flatMap json.escapeChar ++ ['"'])

/-- Whether the first character list comes before the second, character by character;
this is the order of the UTF-8 bytes, in which the encoder sorts the keys of a map. -/
def json.keyLess : List Char → List Char → Bool
  | _, [] => false
  | [], _ :: _ => true
  | c :: cs, d :: ds =>
    decide (c.toNat < d.toNat) || (decide (c.toNat = d.toNat) && json.keyLess cs ds)

/-- Inserts an entry into entries sorted by key. -/
def json.insertEntry {α : Type} (f : String × α) : List (String × α) → List (String × α)
  | [] => [f]
  | g :: gs =>
    if json.keyLess f.1.toList g.1.toList then f :: g :: gs else g :: json.insertEntry f gs

/-- Sorts entries by key. -/
def json.sortEntries {α : Type} : List (String × α) → List (String × α)
  | [] => []
  | f :: fs => json.insertEntry f (json.sortEntries fs)

/-- The start of a line at a nesting depth: the prefix, then one indent per level. -/
def json.lineStart (pfx indent : String) : Nat → List Char
  | 0 => pfx.toList
  | depth + 1 => json.lineStart pfx indent depth ++ indent.toList

/-- The items of a slice or map, one per line, separated by commas. -/
def json.lines (start : List Char) : List (List Char) → List Char
  | [] => []
  | [item] => start ++ item
  | item :: items => start ++ item ++ [',', '\n'] ++ json.lines start items

/-- A slice or a map at a nesting depth: without items the two brackets alone, otherwise
the items on lines of their own between the brackets. -/
def json.block (opening closing : Char) (pfx indent : String) (depth : Nat)
    (items : List (List Char)) : List Char :=
  match items with
  | [] => [opening, closing]
  | _ :: _ =>
    opening :: '\n' :: json.lines (json.lineStart pfx indent (depth + 1)) items
      ++ '\n' :: json.lineStart pfx indent depth ++ [closing]

/-- The encoded items, or the first error among them. -/
def json.collect : List (Except Err (List Char)) → Except Err (List (List Char))
  | [] => .ok []
  | .error e :: _ => .error e
  | .ok item :: rest =>
    match json.collect rest with
    | .error e => .error e
    | .ok items => .ok (item :: items)

/-- A map entry: the quoted key, a colon, a space and the encoded value. -/
def json.entry (f : String × Except Err (List Char)) : Except Err (List Char) :=
  match f.2 with
  | .error e => .error e
  | .ok v => .ok (json.quoted f.1 ++ [':', ' '] ++ v)

mutual
/-- The indented encoding of a value at a nesting depth. -/
def json.encode (pfx indent : String) (depth : Nat) : Value → Except Err (List Char)
  | .null => .ok "null".toList
  | .bool true => .ok "true".toList
  | .bool false => .ok "false".toList
  | .int n => .ok (toString n).toList
  | .str s => .ok (json.quoted s)
  | .array xs =>
    match json.collect (json.encodeItems pfx indent (depth + 1) xs) with
    | .error e => .error e
    | .ok items => .ok (json.block '[' ']' pfx indent depth items)
  | .object fields =>
    match json.collect
        ((json.sortEntries (json.encodeFields pfx indent (depth + 1) fields)).map
          json.entry) with
    | .error e => .error e
    | .ok items => .ok (json.block '\x7b' '\x7d' pfx indent depth items)
  | .unsupported kind => .error (.New ("json: unsupported type: " ++ kind))
/-- The encodings of the items of a slice. -/
def json.encodeItems (pfx indent : String) (depth : Nat) :
    List Value → List (Except Err (List Char))
  | [] => []
  | x :: xs => json.encode pfx indent depth x :: json.encodeItems pfx indent depth xs
/-- The encodings of the values of a map, beside their keys. -/
def json.encodeFields (pfx indent : String) (depth : Nat) :
    List (String × Value) → List (String × Except Err (List Char))
  | [] => []
  | (key, v) :: fields =>
    (key, json.encode pfx indent depth v) :: json.encodeFields pfx indent depth fields
end

/-- The UTF-8 bytes of a character. -/
def utf8Char (c : Char) : List Nat :=
  let n := c.toNat
  if n < 0x80 then [n]
  else if n < 0x800 then [0xC0 + n / 64, 0x80 + n % 64]
  else if n < 0x10000 then [0xE0 + n / 4096, 0x80 + n / 64 % 64, 0x80 + n % 64]
  else [0xF0 + n / 262144, 0x80 + n / 4096 % 64, 0x80 + n / 64 % 64, 0x80 + n % 64]

/-- The UTF-8 bytes of a text. -/
def utf8 (cs : List Char) : List Nat :=
  cs.flatMap utf8Char

/-- The function `json.MarshalIndent(v, prefix, indent)`: the bytes of the indented
encoding, or the error of the first value that cannot be encoded. -/
def json.MarshalIndent (v : Value) (pfx indent : String) : Except Err (List Nat) :=
  match json.encode pfx indent 0 v with
  | .error e => .error e
  | .ok cs => .ok (utf8 cs)

/-! ## The response pipeline

A shallow embedding of `cmd/api/encode.go`.  The response writer records what it was
given, and can stand for a connection that breaks after a number of bytes. -/

/-- The type `http.Header`, a map from header names to values.  The entries are read as
assignments made in order, so the map holds for a name the value of its last entry. -/
structure Header where
  entries : List (String × List String) := []
  deriving DecidableEq, Repr

/-- The value the map holds for a name. -/
def Header.get (h : Header) (key : String) : Option (List String) :=
  (h.entries.reverse.find? (fun kv => decide (kv.1 = key))).map (fun kv => kv.2)

/-- The assignment `h[key] = value`. -/
def Header.assign (h : Header) (key : String) (value : List String) : Header :=
  { h with entries := h.entries ++ [(key, value)] }

/-- The method `Header.Set(key, value)`, for a key that is already in canonical form, as
`Content-Type` is. -/
def Header.Set (h : Header) (key value : String) : Header :=
  h.assign key [value]

/-- A call made on the response writer. -/
inductive ResponseCall where
  | WriteHeader (status : Int)
  | Write (p : List Nat)
  deriving DecidableEq, Repr

/-- An `http.ResponseWriter`: the header map, the status sent if any, the body bytes
sent, and the calls received.  `room` is the number of bytes the connection still takes,
`none` when it takes any number; `broken` is the error `Write` reports beyond that. -/
structure ResponseWriter where
  header : Header := {}
  status : Option Int := none
  body : List Nat := []
  room : Option Nat := none
  broken : Err := .OpError "write: broken pipe"
  calls : List ResponseCall := []
  deriving DecidableEq, Repr

/-- The constant `http.StatusOK`. -/
def http.StatusOK : Int := 200

/-- The constant `http.StatusInternalServerError`. -/
def http.StatusInternalServerError : Int := 500

/-- The method `WriteHeader(status)`: the status is sent unless one was sent before. -/
def ResponseWriter.WriteHeader (w : ResponseWriter) (status : Int) : ResponseWriter :=
  { w with
    status := match w.status with
      | none => some status
      | some sent => some sent
    calls := w.calls ++ [.WriteHeader status] }

/-- The method `Write(p)`: `http.StatusOK` is sent first if no status was; the bytes the
connection takes join the body, and the call fails if it does not take them all. -/
def ResponseWriter.Write (w : ResponseWriter) (p : List Nat) : Option Err × ResponseWriter :=
  let status := match w.status with
    | none => some http.StatusOK
    | some sent => some sent
  match w.room with
  | none =>
    (none, { w with status := status, body := w.body ++ p, calls := w.calls ++ [.Write p] })
  | some n =>
    if p.length ≤ n then
      (none,
        { w with status := status, body := w.body ++ p, room := some (n - p.length),
                 calls := w.calls ++ [.Write p] })
    else
      (some w.broken,
        { w with status := status, body := w.body ++ p.take n, room := some 0,
                 calls := w.calls ++ [.Write p] })

/-- Whether the connection takes `n` more bytes. -/
def ResponseWriter.takes (w : ResponseWriter) (n : Nat) : Bool :=
  match w.room with
  | none => true
  | some k => decide (n ≤ k)

/-- The function `io.Copy(w, reader)`, as far as its error and the writer go: the bytes
of the reader are written until the reader ends or a write fails; the error is that of
the failed write, or else the one that ended the reader.  The copy hands the bytes to
`Write` chunk by chunk; here they are handed over in one call, and in none when there
is no byte. -/
def io.Copy (w : ResponseWriter) (reader : Reader) : Option Err × ResponseWriter :=
  match reader.bytes with
  | [] => (reader.fail, w)
  | b :: bs =>
    match w.Write (b :: bs) with
    | (some err, w) => (some err, w)
    | (none, w) => (reader.fail, w)

/-- Modelled from the spec: the trace record of a request, `{ID, HttpStatus int, Err
error, Message any}`, declared in the tracing package. -/
structure Trace where
  ID : String := ""
  HttpStatus : Int := 0
  Err : Option Err := none
  Message : Value := .null

/-- An `*http.Request`, as far as the helpers read it: the trace record its context
points to. -/
structure Request where
  trace : Trace := {}

/-- Modelled from the spec: `tracing.TraceFromRequestCtx`, the trace record attached to
the request context. -/
def tracing.TraceFromRequestCtx (r : Request) : Trace :=
  r.trace

/-- A line received by the logger: the message, the trace identifier and the error. -/
structure LogEntry where
  msg : String
  id : String
  err : Err
  deriving DecidableEq, Repr

/-- The application logger: the lines it received, oldest first. -/
structure Logger where
  entries : List LogEntry := []
  deriving DecidableEq, Repr

/-- The method `Errorw(msg, "id", id, "err", err)`; a logger made by `With("id", id)`
logs to the same place with the same `id` field. -/
def Logger.Errorw (l : Logger) (msg id : String) (err : Err) : Logger :=
  { l with entries := l.entries ++ [{ msg := msg, id := id, err := err }] }

/-- The type `application`, as far as the helpers use it. -/
structure application where
  logger : Logger := {}

/-- The type `errResponse`. -/
structure errResponse where
  message : Value := .null
  status : Int := 0
  err : Option Err := none

/-- What a helper leaves behind: the application with its logger, the response writer
and the request with its trace record. -/
structure Served where
  app : application
  w : ResponseWriter
  r : Request

/-- What `streamBytes` leaves behind, with the number of times it called `Close` on the
reader. -/
structure Streamed extends Served where
  closes : Nat

/-- A value of type `io.Reader` as `streamBytes` receives it: a reader that is not a
closer, or one that is. -/
inductive ReaderValue where
  | reader (r : Reader)
  | readCloser (rc : ReadCloser)
  deriving DecidableEq, Repr

/-- The byte source of a reader value. -/
def ReaderValue.source : ReaderValue → Reader
  | .reader r => r
  | .readCloser rc => rc.toReader

/-- The loop `for key, value := range headers { w.Header()[key] = value }`. -/
def copyHeaders (w : ResponseWriter) (headers : Header) : ResponseWriter :=
  headers.entries.foldl (fun w kv => { w with header := w.header.assign kv.1 kv.2 }) w

/-- The function `writeJSON`. -/
def writeJSON (w : ResponseWriter) (status : Int) (data : env) (headers : Header) :
    Option Err × ResponseWriter :=
  match json.MarshalIndent data.value "" "  " with
  | .error err => (some err, w)
  | .ok js =>
    let js := js ++ [10]
    let w := copyHeaders w headers
    let w := { w with header := w.header.Set "Content-Type" "application/json" }
    let w := w.WriteHeader status
    w.Write js

/-- The method `application.sendJSON`. -/
def application.sendJSON (app : application) (w : ResponseWriter) (r : Request)
    (status : Int) (data : env) (headers : Header) : Served :=
  let trace := tracing.TraceFromRequestCtx r
  let trace := { trace with HttpStatus := status }
  let trace := { trace with Err := none }
  match writeJSON w status data headers with
  | (some err, w) =>
    let app := { app with logger := app.logger.Errorw "sending json" trace.ID err }
    let trace := { trace with HttpStatus := http.StatusInternalServerError }
    let trace := { trace with Err := some err }
    { app := app, w := w, r := { r with trace := trace } }
  | (none, w) => { app := app, w := w, r := { r with trace := trace } }

/-- The method `application.sendJSONError`. -/
def application.sendJSONError (app : application) (w : ResponseWriter) (r : Request)
    (resp : errResponse) : Served :=
  let trace := tracing.TraceFromRequestCtx r
  let trace := { trace with HttpStatus := resp.status }
  let trace := { trace with Message := resp.message }
  let trace := { trace with Err := resp.err }
  match writeJSON w resp.status
      (.entries [("status_code", .int resp.status), ("error", resp.message)]) {} with
  | (some err, w) =>
    let app := { app with logger := app.logger.Errorw "sending json" trace.ID err }
    let trace := { trace with HttpStatus := http.StatusInternalServerError }
    let trace := { trace with Err := some err }
    { app := app, w := w, r := { r with trace := trace } }
  | (none, w) => { app := app, w := w, r := { r with trace := trace } }

/-- The deferred function of `streamBytes`: a reader that is a closer is closed, and the
error of `Close`, if any, is logged. -/
def application.closeReader (app : application) (id : String) :
    ReaderValue → application × Nat
  | .reader _ => (app, 0)
  | .readCloser rc =>
    match rc.closeErr with
    | some err =>
      ({ app with logger := app.logger.Errorw "error closing read closer" id err }, 1)
    | none => (app, 1)

/-- The method `application.streamBytes`. -/
def application.streamBytes (app : application) (w : ResponseWriter) (r : Request)
    (reader : ReaderValue) (headers : Header) : Streamed :=
  let trace := tracing.TraceFromRequestCtx r
  let trace := { trace with HttpStatus := http.StatusOK }
  let trace := { trace with Err := none }
  let w := copyHeaders w headers
  match io.Copy w reader.source with
  | (some err, w) =>
    let app :=
      if errors.AsOpError err then
        { app with
          logger := app.logger.Errorw "network/client issue streaming bytes" trace.ID err }
      else { app with logger := app.logger.Errorw "streaming bytes" trace.ID err }
    let trace := { trace with HttpStatus := http.StatusInternalServerError }
    let trace := { trace with Err := some err }
    -- the deferred function runs when the method returns
    let closed := app.closeReader trace.ID reader
    { app := closed.1, w := w, r := { r with trace := trace }, closes := closed.2 }
  | (none, w) =>
    let closed := app.closeReader trace.ID reader
    { app := closed.1, w := w, r := { r with trace := trace }, closes := closed.2 }

/-- A response writer on which nothing was done yet and whose connection takes `k`
bytes before it breaks. -/
def breakingAfter (k : Nat) : ResponseWriter := { room := some k }

/-- Extra headers that name a content type and a request identifier. -/
def sampleHeaders : Header :=
  { entries := [("Content-Type", ["text/plain"]), ("X-Request-Id", ["r-17"])] }

/-- A request whose trace record carries values left by earlier work. -/
def sampleRequest : Request :=
  { trace := { ID := "t-1", HttpStatus := 404, Err := some .ErrRecordNotFound,
               Message := .str "earlier" } }

/-- A reader that yields three bytes and then fails with an error of its own. -/
def failingReader : Reader := { bytes := [7, 8, 9], fail := some (.New "disk read error") }

/-- A closer over three bytes that fails with a network error; its `Close` succeeds. -/
def failingReadCloser : ReadCloser :=
  { bytes := [7, 8, 9], fail := some (.OpError "read tcp: connection reset by peer") }

/-- The error response of a handler that found no record. -/
def notFoundResponse : errResponse :=
  { message := .str "not found", status := 404, err := some .ErrRecordNotFound }

/-- A mapping with a value that has no JSON encoding. -/
def unencodable : env :=
  .entries [("status_code", .int 200), ("events", .unsupported "chan int")]

/-- A store state with one image, published and owned by user 1, that has no binary
content. -/
def contentlessMem : Mem where
  galleries := [{ ID := 10, UserID := 1 }]
  images := [{ ID := 102, GalleryID := 10, UserID := 1, Published := true }]

/-! ## Theorems -/

/-- C1: for every store state, every stored image and every caller whose user ID differs
from the image's `UserID`, with `Published = false`, the non-public path of `Get` and of
`Download`, and `Update` and `Delete`, return `ErrForbidden` with a zero-value image, and
`Download` returns no reader. -/
theorem C1_non_owner_forbidden (msgs : Messages) (is : ImagesService σ) (w : World σ)
    (ctx : Context) (image inp : Image)
    (hStored : is.Store.Images.Get w.state image.ID = .ok image)
    (hCaller : (ContextGetAuth ctx).User.ID ≠ image.UserID)
    (_hPrivate : image.Published = false)
    (hID : inp.ID = image.ID) :
    (is.Get ctx false image.ID w).1 = ({}, some .ErrForbidden) ∧
    (is.Download ctx false image.ID w).1 = ({}, none, some .ErrForbidden) ∧
    (is.Update msgs ctx inp w).1 = ({}, some .ErrForbidden) ∧
    (is.Delete ctx image.ID w).1 = ({}, some .ErrForbidden) := by
  have hCaller2 : image.UserID ≠ (ContextGetAuth ctx).User.ID := fun h => hCaller h.symm
  refine ⟨?_, ?_, ?_, ?_⟩
  · simp [ImagesService.Get, Store.imagesGet, hStored, hCaller]
  · simp [ImagesService.Download, Store.imagesGet, hStored, hCaller]
  · simp [ImagesService.Update, Store.imagesGet, hID, hStored, hCaller2]
  · simp [ImagesService.Delete, Store.imagesGet, hStored, hCaller2]

/-- Instance of C1: user 2 asks for the private image 100 of user 1. -/
theorem C1_non_owner_forbidden_witness :
    memStore.Images.Get sampleMem 100
      = .ok { ID := 100, GalleryID := 10, Title := "dawn", UserID := 1,
              ContentType := "image/png" } ∧
    (ContextGetAuth (ctxOf 2)).User.ID ≠ 1 ∧
    (memService.Get (ctxOf 2) false 100 sampleWorld).1 = ({}, some .ErrForbidden) ∧
    (memService.Download (ctxOf 2) false 100 sampleWorld).1 = ({}, none, some .ErrForbidden) ∧
    (memService.Update sampleMessages (ctxOf 2) { ID := 100, Title := "mine" } sampleWorld).1
      = ({}, some .ErrForbidden) ∧
    (memService.Delete (ctxOf 2) 100 sampleWorld).1 = ({}, some .ErrForbidden) :=
  ⟨rfl, by decide,
    C1_non_owner_forbidden sampleMessages memService sampleWorld (ctxOf 2)
      { ID := 100, GalleryID := 10, Title := "dawn", UserID := 1, ContentType := "image/png" }
      { ID := 100, Title := "mine" } rfl (by decide) rfl rfl⟩

/-- C2: for every store state and every stored image with `Published = false`, `Get` and
`Download` called with `public = true` return `ErrForbidden` with a zero-value image,
whatever the caller; `Download` returns no reader and its only store call is
`Images.Get`, so `GetReader` is not called. -/
theorem C2_public_path_hides_unpublished (is : ImagesService σ) (w : World σ)
    (ctx : Context) (image : Image)
    (hStored : is.Store.Images.Get w.state image.ID = .ok image)
    (hPrivate : image.Published = false) :
    (is.Get ctx true image.ID w).1 = ({}, some .ErrForbidden) ∧
    (is.Download ctx true image.ID w).1 = ({}, none, some .ErrForbidden) ∧
    (is.Download ctx true image.ID w).2.calls = w.calls ++ [.ImagesGet image.ID] := by
  refine ⟨?_, ?_, ?_⟩
  · simp [ImagesService.Get, Store.imagesGet, hStored, hPrivate]
  · simp [ImagesService.Download, Store.imagesGet, hStored, hPrivate]
  · simp [ImagesService.Download, Store.imagesGet, World.log, hStored, hPrivate]

/-- Instance of C2: an anonymous caller asks for the private image 100 on the public
path. -/
theorem C2_public_path_hides_unpublished_witness :
    memStore.Images.Get sampleMem 100
      = .ok { ID := 100, GalleryID := 10, Title := "dawn", UserID := 1,
              ContentType := "image/png" } ∧
    (memService.Get ctxAnonymous true 100 sampleWorld).1 = ({}, some .ErrForbidden) ∧
    (memService.Download ctxAnonymous true 100 sampleWorld).1
      = ({}, none, some .ErrForbidden) ∧
    (memService.Download ctxAnonymous true 100 sampleWorld).2.calls = [] ++ [.ImagesGet 100] :=
  ⟨rfl,
    C2_public_path_hides_unpublished memService sampleWorld ctxAnonymous
      { ID := 100, GalleryID := 10, Title := "dawn", UserID := 1, ContentType := "image/png" }
      rfl rfl⟩

/-- C3: when `Insert` passes its gallery checks, its store calls are the gallery lookup
and one `Images.Insert`, whose record has the caller's user ID as `UserID` whatever the
input carries, `GalleryID`, `Title`, `Caption` and `ContentType` copied from the input,
and `ID` and `Published` at their zero values. -/
theorem C3_insert_assigns_caller (msgs : Messages) (is : ImagesService σ) (w : World σ)
    (ctx : Context) (reader : Reader) (image : Image) (gallery : Gallery)
    (hGallery : is.Store.Galleries.Get w.state image.GalleryID = .ok gallery)
    (hOwner : gallery.UserID = (ContextGetAuth ctx).User.ID) :
    (is.Insert msgs ctx reader image w).2.calls =
      w.calls ++
        [ .GalleriesGet image.GalleryID,
          .ImagesInsert reader
            { ID := 0
              GalleryID := image.GalleryID
              Title := image.Title
              Caption := image.Caption
              UserID := (ContextGetAuth ctx).User.ID
              ContentType := image.ContentType
              Published := false } ] := by
  simp only [ImagesService.Insert, Store.galleriesGet, hGallery, hOwner, ne_eq,
    not_true_eq_false, if_false, Store.imagesInsert, World.log]
  split <;> rename_i heq <;> simp only [Prod.mk.injEq] at heq <;> obtain ⟨-, rfl⟩ := heq
  · split_ifs <;> simp
  · simp

/-- Instance of C3: user 1 inserts into the own gallery 10 an image that claims owner 7,
identifier 5 and the published flag. -/
theorem C3_insert_assigns_caller_witness :
    memStore.Galleries.Get sampleMem 10 = .ok { ID := 10, UserID := 1 } ∧
    (memService.Insert sampleMessages (ctxOf 1) { bytes := [1] }
        { ID := 5, GalleryID := 10, Title := "t", UserID := 7, Published := true }
        sampleWorld).2.calls =
      [] ++
        [ .GalleriesGet 10,
          .ImagesInsert { bytes := [1] }
            { ID := 0, GalleryID := 10, Title := "t", Caption := "", UserID := 1,
              ContentType := "", Published := false } ] :=
  ⟨rfl,
    C3_insert_assigns_caller sampleMessages memService sampleWorld (ctxOf 1) { bytes := [1] }
      { ID := 5, GalleryID := 10, Title := "t", UserID := 7, Published := true }
      { ID := 10, UserID := 1 } rfl rfl⟩

/-- C4: for every stored image `old` owned by the caller and every input `inp` with
`inp.ID = old.ID`, the store calls of `Update` are the lookup and one `Images.Update`,
whose record is `old` with `Title` and `Caption` replaced by those of `inp`: `ID`,
`GalleryID`, `ContentType`, `Published` and `UserID` are those of `old`. -/
theorem C4_update_frame (msgs : Messages) (is : ImagesService σ) (w : World σ)
    (ctx : Context) (old inp : Image)
    (hStored : is.Store.Images.Get w.state old.ID = .ok old)
    (hOwner : old.UserID = (ContextGetAuth ctx).User.ID)
    (hID : inp.ID = old.ID) :
    (is.Update msgs ctx inp w).2.calls =
      w.calls ++
        [ .ImagesGet inp.ID,
          .ImagesUpdate
            { ID := old.ID
              GalleryID := old.GalleryID
              Title := inp.Title
              Caption := inp.Caption
              UserID := old.UserID
              ContentType := old.ContentType
              Published := old.Published } ] := by
  simp only [ImagesService.Update, Store.imagesGet, hID, hStored, hOwner, ne_eq,
    not_true_eq_false, if_false, Store.imagesUpdate, World.log]
  split <;> rename_i heq <;> simp only [Prod.mk.injEq] at heq <;> obtain ⟨-, rfl⟩ := heq
  · split_ifs <;> simp [hOwner]
  · simp [hOwner]

/-- Instance of C4: user 1 updates the own image 100 with an input that also supplies
another gallery, owner, content type and the published flag. -/
theorem C4_update_frame_witness :
    memStore.Images.Get sampleMem 100
      = .ok { ID := 100, GalleryID := 10, Title := "dawn", UserID := 1,
              ContentType := "image/png" } ∧
    (memService.Update sampleMessages (ctxOf 1)
        { ID := 100, GalleryID := 11, Title := "noon", Caption := "c", UserID := 9,
          ContentType := "image/gif", Published := true } sampleWorld).2.calls =
      [] ++
        [ .ImagesGet 100,
          .ImagesUpdate
            { ID := 100, GalleryID := 10, Title := "noon", Caption := "c", UserID := 1,
              ContentType := "image/png", Published := false } ] :=
  ⟨rfl,
    C4_update_frame sampleMessages memService sampleWorld (ctxOf 1)
      { ID := 100, GalleryID := 10, Title := "dawn", UserID := 1, ContentType := "image/png" }
      { ID := 100, GalleryID := 11, Title := "noon", Caption := "c", UserID := 9,
        ContentType := "image/gif", Published := true } rfl rfl rfl⟩

/-- C5, as stated, fails: gallery 10 exists and is owned by the caller, the store's
`Images.Insert` reports an error that wraps `ErrEmptyBytes`, and `Insert` returns
`ErrEditConflict`, not the validation error, because the message of that error
contains `image_to_galleries_fk`, which `Insert` tests first. -/
theorem C5_counterexample :
    (memStoreWith wrappedEmptyBytes).Galleries.Get sampleMem 10
      = .ok { ID := 10, UserID := 1 } ∧
    ((memStoreWith wrappedEmptyBytes).Images.Insert sampleMem {}
        { GalleryID := 10, UserID := 1 }).1 = .error wrappedEmptyBytes ∧
    errors.Is wrappedEmptyBytes .ErrEmptyBytes = true ∧
    (ImagesService.Insert sampleMessages { Store := memStoreWith wrappedEmptyBytes }
        (ctxOf 1) {} { GalleryID := 10 } sampleWorld).1 = ({}, some .ErrEditConflict) ∧
    (ImagesService.Insert sampleMessages { Store := memStoreWith wrappedEmptyBytes }
        (ctxOf 1) {} { GalleryID := 10 } sampleWorld).1
      ≠ ({}, some (.Validation { Errors := [("body", "no bytes in body")] })) :=
  ⟨rfl, rfl, rfl, rfl, by decide⟩

/-- C5, amended: for every `Insert` call whose parent gallery exists and is owned by the
caller, if the store's `Images.Insert` reports an error that is or wraps `ErrEmptyBytes`
and whose message does not contain `image_to_galleries_fk`, `Insert` returns a
zero-value image and a validation error whose field errors are exactly
`"body" -> "no bytes in body"`. -/
theorem C5_empty_payload_validation (msgs : Messages) (is : ImagesService σ) (w : World σ)
    (ctx : Context) (reader : Reader) (image : Image) (gallery : Gallery) (e : Err)
    (hGallery : is.Store.Galleries.Get w.state image.GalleryID = .ok gallery)
    (hOwner : gallery.UserID = (ContextGetAuth ctx).User.ID)
    (hInsert : (is.Store.Images.Insert w.state reader
        { GalleryID := image.GalleryID
          Title := image.Title
          Caption := image.Caption
          UserID := (ContextGetAuth ctx).User.ID
          ContentType := image.ContentType }).1 = .error e)
    (hEmpty : errors.Is e .ErrEmptyBytes = true)
    (hMarker : strings.Contains (e.Error msgs) "image_to_galleries_fk" = false) :
    (is.Insert msgs ctx reader image w).1
      = ({}, some (.Validation { Errors := [("body", "no bytes in body")] })) := by
  simp [ImagesService.Insert, Store.galleriesGet, hGallery, hOwner, Store.imagesInsert,
    World.log, hInsert, hEmpty, hMarker, Validator.New, Validator.AddError]

/-- Instance of C5, amended: user 1 inserts an empty payload into the own gallery 10. -/
theorem C5_empty_payload_validation_witness :
    memStore.Galleries.Get sampleMem 10 = .ok { ID := 10, UserID := 1 } ∧
    (memStore.Images.Insert sampleMem {} { GalleryID := 10, UserID := 1 }).1
      = .error .ErrEmptyBytes ∧
    (memService.Insert sampleMessages (ctxOf 1) {} { GalleryID := 10 } sampleWorld).1
      = ({}, some (.Validation { Errors := [("body", "no bytes in body")] })) :=
  ⟨rfl, rfl,
    C5_empty_payload_validation sampleMessages memService sampleWorld (ctxOf 1) {}
      { GalleryID := 10 } { ID := 10, UserID := 1 } .ErrEmptyBytes rfl rfl rfl rfl rfl⟩

/-- C6, as stated, fails: no gallery 12 exists, the payload is not empty, and `Insert`
returns `ErrRecordNotFound`, not `ErrEditConflict`. -/
theorem C6_counterexample :
    memStore.Galleries.Get sampleMem 12 = .error .ErrRecordNotFound ∧
    (memService.Insert sampleMessages (ctxOf 1) { bytes := [1] } { GalleryID := 12 }
        sampleWorld).1 = ({}, some .ErrRecordNotFound) ∧
    (memService.Insert sampleMessages (ctxOf 1) { bytes := [1] } { GalleryID := 12 }
        sampleWorld).1.2 ≠ some .ErrEditConflict :=
  ⟨rfl, rfl, by decide⟩

/-- C6, amended: for every `Insert` call with a non-empty payload whose `GalleryID`
references no existing gallery (`Galleries.Get` fails with an error that is or wraps
`ErrRecordNotFound`), `Insert` returns `ErrRecordNotFound` with a zero-value image, and
its only store call is the gallery lookup. -/
theorem C6_missing_gallery_not_found (msgs : Messages) (is : ImagesService σ) (w : World σ)
    (ctx : Context) (reader : Reader) (image : Image) (e : Err)
    (_hPayload : reader.bytes ≠ [])
    (hGallery : is.Store.Galleries.Get w.state image.GalleryID = .error e)
    (hMissing : errors.Is e .ErrRecordNotFound = true) :
    (is.Insert msgs ctx reader image w).1 = ({}, some .ErrRecordNotFound) ∧
    (is.Insert msgs ctx reader image w).2.calls = w.calls ++ [.GalleriesGet image.GalleryID] := by
  simp [ImagesService.Insert, Store.galleriesGet, hGallery, hMissing, World.log]

/-- Instance of C6, amended: user 1 inserts one byte into the missing gallery 12. -/
theorem C6_missing_gallery_not_found_witness :
    memStore.Galleries.Get sampleMem 12 = .error .ErrRecordNotFound ∧
    (memService.Insert sampleMessages (ctxOf 1) { bytes := [1] } { GalleryID := 12 }
        sampleWorld).1 = ({}, some .ErrRecordNotFound) ∧
    (memService.Insert sampleMessages (ctxOf 1) { bytes := [1] } { GalleryID := 12 }
        sampleWorld).2.calls = [] ++ [.GalleriesGet 12] :=
  ⟨rfl,
    C6_missing_gallery_not_found sampleMessages memService sampleWorld (ctxOf 1)
      { bytes := [1] } { GalleryID := 12 } .ErrRecordNotFound (by decide) rfl rfl⟩

/-- C7, as stated, fails: image 101 is stored and published, the caller is user 2, not
its owner, and `Get` and `Download` called with `public = false` return `ErrForbidden`
although the binary content is present. -/
theorem C7_counterexample :
    memStore.Images.Get sampleMem 101
      = .ok { ID := 101, GalleryID := 10, Title := "dusk", UserID := 1,
              ContentType := "image/png", Published := true } ∧
    memStore.Images.GetReader sampleMem 101 = .ok { bytes := [137, 80, 78, 71] } ∧
    (ContextGetAuth (ctxOf 2)).User.ID ≠ 1 ∧
    (memService.Get (ctxOf 2) false 101 sampleWorld).1 = ({}, some .ErrForbidden) ∧
    (memService.Download (ctxOf 2) false 101 sampleWorld).1 = ({}, none, some .ErrForbidden) :=
  ⟨rfl, rfl, by decide, rfl, rfl⟩

/-- C7, amended: for every stored image and every caller, anonymous or not, `Get` called
with `public = true` returns the image without error if and only if `Published` is true,
and so does `Download` when the binary content is present; called with `public = false`
by a caller whose user ID differs from the image's `UserID`, both return `ErrForbidden`
whatever `Published` is. -/
theorem C7_non_owner_visibility (is : ImagesService σ) (w : World σ) (ctx : Context)
    (image : Image)
    (hStored : is.Store.Images.Get w.state image.ID = .ok image) :
    ((is.Get ctx true image.ID w).1 = (image, none) ↔ image.Published = true) ∧
    (∀ rc, is.Store.Images.GetReader w.state image.ID = .ok rc →
      ((is.Download ctx true image.ID w).1 = (image, some rc, none)
        ↔ image.Published = true)) ∧
    ((ContextGetAuth ctx).User.ID ≠ image.UserID →
      (is.Get ctx false image.ID w).1 = ({}, some .ErrForbidden) ∧
      (is.Download ctx false image.ID w).1 = ({}, none, some .ErrForbidden)) := by
  refine ⟨?_, ?_, ?_⟩
  · cases hp : image.Published <;>
      simp [ImagesService.Get, Store.imagesGet, hStored, hp]
  · intro rc hContent
    cases hp : image.Published <;>
      simp [ImagesService.Download, Store.imagesGet, Store.imagesGetReader, World.log,
        hStored, hContent, hp]
  · intro hCaller
    constructor
    · simp [ImagesService.Get, Store.imagesGet, hStored, hCaller]
    · simp [ImagesService.Download, Store.imagesGet, hStored, hCaller]

/-- Instance of C7, amended: an anonymous caller and the published image 101, which has
binary content, and user 2 and the published image 102 of `contentlessMem`, which has
none. -/
theorem C7_non_owner_visibility_witness :
    memStore.Images.Get sampleMem 101
      = .ok { ID := 101, GalleryID := 10, Title := "dusk", UserID := 1,
              ContentType := "image/png", Published := true } ∧
    memStore.Images.GetReader sampleMem 101 = .ok { bytes := [137, 80, 78, 71] } ∧
    (memService.Get ctxAnonymous true 101 sampleWorld).1
      = ({ ID := 101, GalleryID := 10, Title := "dusk", UserID := 1,
           ContentType := "image/png", Published := true }, none) ∧
    (memService.Download ctxAnonymous true 101 sampleWorld).1
      = ({ ID := 101, GalleryID := 10, Title := "dusk", UserID := 1,
           ContentType := "image/png", Published := true },
         some { bytes := [137, 80, 78, 71] }, none) ∧
    (memService.Get ctxAnonymous false 101 sampleWorld).1 = ({}, some .ErrForbidden) ∧
    (memService.Download ctxAnonymous false 101 sampleWorld).1
      = ({}, none, some .ErrForbidden) ∧
    memStore.Images.Get contentlessMem 102
      = .ok { ID := 102, GalleryID := 10, UserID := 1, Published := true } ∧
    memStore.Images.GetReader contentlessMem 102 = .error .ErrRecordNotFound ∧
    (memService.Get (ctxOf 2) true 102 { state := contentlessMem }).1
      = ({ ID := 102, GalleryID := 10, UserID := 1, Published := true }, none) ∧
    (memService.Get (ctxOf 2) false 102 { state := contentlessMem }).1
      = ({}, some .ErrForbidden) :=
  have h := C7_non_owner_visibility memService sampleWorld ctxAnonymous
    { ID := 101, GalleryID := 10, Title := "dusk", UserID := 1,
      ContentType := "image/png", Published := true } rfl
  have h' := C7_non_owner_visibility memService { state := contentlessMem } (ctxOf 2)
    { ID := 102, GalleryID := 10, UserID := 1, Published := true } rfl
  ⟨rfl, rfl, h.1.mpr rfl, (h.2.1 { bytes := [137, 80, 78, 71] } rfl).mpr rfl,
    (h.2.2 (by decide)).1, (h.2.2 (by decide)).2, rfl, rfl, h'.1.mpr rfl,
    (h'.2.2 (by decide)).1⟩

/-- C8, as stated, fails: image 100 is stored, the caller is user 1, its owner, and `Get`
called with `public = true` returns `ErrForbidden` because the image is not published. -/
theorem C8_counterexample :
    memStore.Images.Get sampleMem 100
      = .ok { ID := 100, GalleryID := 10, Title := "dawn", UserID := 1,
              ContentType := "image/png" } ∧
    (ContextGetAuth (ctxOf 1)).User.ID = 1 ∧
    (memService.Get (ctxOf 1) true 100 sampleWorld).1 = ({}, some .ErrForbidden) :=
  ⟨rfl, rfl, rfl⟩

/-- C8, amended: for every stored image and every caller whose user ID equals the image's
`UserID`, `Get` called with `public = false` returns the stored image unchanged and no
error whatever `Published` is; called with `public = true` it returns the image if and
only if `Published` is true and `ErrForbidden` otherwise.  `Update` and `Delete` pass
the ownership check: each makes its mutating store call, and returns `ErrForbidden`
only if that store call itself reports `ErrForbidden`. -/
theorem C8_owner_visibility (msgs : Messages) (is : ImagesService σ) (w : World σ)
    (ctx : Context) (image inp : Image)
    (hStored : is.Store.Images.Get w.state image.ID = .ok image)
    (hOwner : (ContextGetAuth ctx).User.ID = image.UserID)
    (hID : inp.ID = image.ID) :
    (is.Get ctx false image.ID w).1 = (image, none) ∧
    ((is.Get ctx true image.ID w).1 = (image, none) ↔ image.Published = true) ∧
    (image.Published = false → (is.Get ctx true image.ID w).1 = ({}, some .ErrForbidden)) ∧
    (is.Update msgs ctx inp w).2.calls =
      w.calls ++
        [ .ImagesGet image.ID,
          .ImagesUpdate { image with Title := inp.Title, Caption := inp.Caption } ] ∧
    ((is.Update msgs ctx inp w).1.2 = some .ErrForbidden →
      (is.Store.Images.Update w.state
        { image with Title := inp.Title, Caption := inp.Caption }).1 = .error .ErrForbidden) ∧
    (is.Delete ctx image.ID w).2.calls
      = w.calls ++ [.ImagesGet image.ID, .ImagesDelete image.ID] ∧
    ((is.Delete ctx image.ID w).1.2 = some .ErrForbidden →
      (is.Store.Images.Delete w.state image.ID).1 = some .ErrForbidden) := by
  refine ⟨?_, ?_, ?_, ?_, ?_, ?_, ?_⟩
  · simp [ImagesService.Get, Store.imagesGet, hStored, hOwner]
  · cases hp : image.Published <;>
      simp [ImagesService.Get, Store.imagesGet, hStored, hp]
  · intro hp
    simp [ImagesService.Get, Store.imagesGet, hStored, hp]
  · simp only [ImagesService.Update, Store.imagesGet, hID, hStored, hOwner, ne_eq,
      not_true_eq_false, if_false, Store.imagesUpdate, World.log]
    split <;> rename_i heq <;> simp only [Prod.mk.injEq] at heq <;> obtain ⟨-, rfl⟩ := heq
    · split_ifs <;> simp
    · simp
  · simp only [ImagesService.Update, Store.imagesGet, hID, hStored, hOwner, ne_eq,
      not_true_eq_false, if_false, Store.imagesUpdate, World.log]
    split <;> rename_i heq <;> simp only [Prod.mk.injEq] at heq <;> obtain ⟨h1, rfl⟩ := heq
    · split_ifs <;> simp [h1]
    · simp
  · simp only [ImagesService.Delete, Store.imagesGet, hStored, hOwner, ne_eq,
      not_true_eq_false, if_false, Store.imagesDelete, World.log]
    split <;> rename_i heq <;> simp only [Prod.mk.injEq] at heq <;> obtain ⟨-, rfl⟩ := heq
    · split_ifs <;> simp
    · simp
  · simp only [ImagesService.Delete, Store.imagesGet, hStored, hOwner, ne_eq,
      not_true_eq_false, if_false, Store.imagesDelete, World.log]
    split <;> rename_i heq <;> simp only [Prod.mk.injEq] at heq <;> obtain ⟨h1, rfl⟩ := heq
    · split_ifs with hnf
      · simp
      · simp [h1]
    · simp

/-- Instance of C8, amended: user 1 reads, updates and deletes the own private image
100. -/
theorem C8_owner_visibility_witness :
    memStore.Images.Get sampleMem 100
      = .ok { ID := 100, GalleryID := 10, Title := "dawn", UserID := 1,
              ContentType := "image/png" } ∧
    (memService.Get (ctxOf 1) false 100 sampleWorld).1
      = ({ ID := 100, GalleryID := 10, Title := "dawn", UserID := 1,
           ContentType := "image/png" }, none) ∧
    (memService.Get (ctxOf 1) true 100 sampleWorld).1 = ({}, some .ErrForbidden) ∧
    (memService.Update sampleMessages (ctxOf 1) { ID := 100, Title := "noon" }
        sampleWorld).2.calls =
      [] ++
        [ .ImagesGet 100,
          .ImagesUpdate { ID := 100, GalleryID := 10, Title := "noon", Caption := "",
                          UserID := 1, ContentType := "image/png", Published := false } ] ∧
    (memService.Delete (ctxOf 1) 100 sampleWorld).2.calls
      = [] ++ [.ImagesGet 100, .ImagesDelete 100] :=
  have h := C8_owner_visibility sampleMessages memService sampleWorld (ctxOf 1)
    { ID := 100, GalleryID := 10, Title := "dawn", UserID := 1, ContentType := "image/png" }
    { ID := 100, Title := "noon" } rfl rfl rfl
  ⟨rfl, h.1, h.2.2.1 rfl, h.2.2.2.1, h.2.2.2.2.2.1⟩

/-- C9: for every existing gallery, `ListForGallery` returns `ErrForbidden` with nil
images and zero metadata, its only store call being the gallery lookup, exactly when
`public = true` and the gallery is not published, or `public = false` and the caller's
user ID differs from the gallery's `UserID`; in every other case it calls
`Images.GetAllForGallery(galleryID, filter)` and returns the images, metadata and error
that call produces. -/
theorem C9_list_for_gallery (is : ImagesService σ) (w : World σ) (ctx : Context)
    (public : Bool) (galleryID : Int) (filter : Input) (gallery : Gallery)
    (hGallery : is.Store.Galleries.Get w.state galleryID = .ok gallery) :
    (((is.ListForGallery ctx public galleryID filter w).1 = ([], {}, some .ErrForbidden) ∧
        (is.ListForGallery ctx public galleryID filter w).2.calls
          = w.calls ++ [.GalleriesGet galleryID])
      ↔ ((public = true ∧ gallery.Published = false) ∨
          (public = false ∧ (ContextGetAuth ctx).User.ID ≠ gallery.UserID))) ∧
    (¬ ((public = true ∧ gallery.Published = false) ∨
          (public = false ∧ (ContextGetAuth ctx).User.ID ≠ gallery.UserID)) →
      (is.ListForGallery ctx public galleryID filter w).1
          = (match is.Store.Images.GetAllForGallery w.state galleryID filter with
             | .error err => ([], {}, some err)
             | .ok (images, metadata) => (images, metadata, none)) ∧
        (is.ListForGallery ctx public galleryID filter w).2.calls
          = w.calls ++ [.GalleriesGet galleryID, .ImagesGetAllForGallery galleryID filter]) := by
  rcases hr : is.Store.Images.GetAllForGallery w.state galleryID filter
    with err | ⟨images, metadata⟩ <;>
  cases public <;> cases hp : gallery.Published <;>
    by_cases hc : (ContextGetAuth ctx).User.ID = gallery.UserID <;>
    simp [ImagesService.ListForGallery, Store.galleriesGet, Store.imagesGetAllForGallery,
      hGallery, hp, hc, hr, World.log]

/-- Instance of C9 on gallery 10, private and owned by user 1: user 2 is refused on the
public path, and user 1 gets the two images of the gallery on the non-public path. -/
theorem C9_list_for_gallery_witness :
    memStore.Galleries.Get sampleMem 10 = .ok { ID := 10, UserID := 1 } ∧
    (memService.ListForGallery (ctxOf 2) true 10 {} sampleWorld).1
      = ([], {}, some .ErrForbidden) ∧
    (memService.ListForGallery (ctxOf 2) true 10 {} sampleWorld).2.calls
      = [] ++ [.GalleriesGet 10] ∧
    (memService.ListForGallery (ctxOf 1) false 10 {} sampleWorld).1
      = ([ { ID := 100, GalleryID := 10, Title := "dawn", UserID := 1,
             ContentType := "image/png" },
           { ID := 101, GalleryID := 10, Title := "dusk", UserID := 1,
             ContentType := "image/png", Published := true } ], {}, none) ∧
    (memService.ListForGallery (ctxOf 1) false 10 {} sampleWorld).2.calls
      = [] ++ [.GalleriesGet 10, .ImagesGetAllForGallery 10 {}] :=
  have hDenied := (C9_list_for_gallery memService sampleWorld (ctxOf 2) true 10 {}
    { ID := 10, UserID := 1 } rfl).1.mpr (Or.inl ⟨rfl, rfl⟩)
  have hAllowed := (C9_list_for_gallery memService sampleWorld (ctxOf 1) false 10 {}
    { ID := 10, UserID := 1 } rfl).2 (by decide)
  ⟨rfl, hDenied.1, hDenied.2, hAllowed.1, hAllowed.2⟩

/-- C10: `ListForGallery` and `Insert` return exactly `ErrRecordNotFound` whenever the
store's `Galleries.Get` fails with an error that is or wraps `ErrRecordNotFound`, and
`Update` and `Delete` return it whenever `Images.Get` does; the other results are zero
values, the only store call is the lookup, the store state is left as it was, and the
outcome is the same for every caller, public flag, filter and payload. -/
theorem C10_missing_entity_not_found (msgs : Messages) (is : ImagesService σ)
    (w : World σ) :
    (∀ (galleryID : Int) (e : Err),
      is.Store.Galleries.Get w.state galleryID = .error e →
      errors.Is e .ErrRecordNotFound = true →
      ∀ (ctx : Context) (public : Bool) (filter : Input),
        is.ListForGallery ctx public galleryID filter w
          = (([], {}, some .ErrRecordNotFound), w.log (.GalleriesGet galleryID))) ∧
    (∀ (image : Image) (e : Err),
      is.Store.Galleries.Get w.state image.GalleryID = .error e →
      errors.Is e .ErrRecordNotFound = true →
      ∀ (ctx : Context) (reader : Reader),
        is.Insert msgs ctx reader image w
          = (({}, some .ErrRecordNotFound), w.log (.GalleriesGet image.GalleryID))) ∧
    (∀ (inp : Image) (e : Err),
      is.Store.Images.Get w.state inp.ID = .error e →
      errors.Is e .ErrRecordNotFound = true →
      ∀ ctx : Context,
        is.Update msgs ctx inp w
          = (({}, some .ErrRecordNotFound), w.log (.ImagesGet inp.ID))) ∧
    (∀ (imageID : Int) (e : Err),
      is.Store.Images.Get w.state imageID = .error e →
      errors.Is e .ErrRecordNotFound = true →
      ∀ ctx : Context,
        is.Delete ctx imageID w
          = (({}, some .ErrRecordNotFound), w.log (.ImagesGet imageID))) := by
  refine ⟨?_, ?_, ?_, ?_⟩
  · intro galleryID e hGallery hMissing ctx public filter
    simp [ImagesService.ListForGallery, Store.galleriesGet, hGallery, hMissing]
  · intro image e hGallery hMissing ctx reader
    simp [ImagesService.Insert, Store.galleriesGet, hGallery, hMissing]
  · intro inp e hImage hMissing ctx
    simp [ImagesService.Update, Store.imagesGet, hImage, hMissing]
  · intro imageID e hImage hMissing ctx
    simp [ImagesService.Delete, Store.imagesGet, hImage, hMissing]

/-- Instance of C10: no gallery 12 and no image 102 exist; an anonymous caller lists the
gallery on the public path and user 1 inserts into it, updates and deletes the image. -/
theorem C10_missing_entity_not_found_witness :
    memStore.Galleries.Get sampleMem 12 = .error .ErrRecordNotFound ∧
    memStore.Images.Get sampleMem 102 = .error .ErrRecordNotFound ∧
    memService.ListForGallery ctxAnonymous true 12 {} sampleWorld
      = (([], {}, some .ErrRecordNotFound), sampleWorld.log (.GalleriesGet 12)) ∧
    memService.Insert sampleMessages (ctxOf 1) { bytes := [1] } { GalleryID := 12 } sampleWorld
      = (({}, some .ErrRecordNotFound), sampleWorld.log (.GalleriesGet 12)) ∧
    memService.Update sampleMessages (ctxOf 1) { ID := 102 } sampleWorld
      = (({}, some .ErrRecordNotFound), sampleWorld.log (.ImagesGet 102)) ∧
    memService.Delete (ctxOf 1) 102 sampleWorld
      = (({}, some .ErrRecordNotFound), sampleWorld.log (.ImagesGet 102)) :=
  have h := C10_missing_entity_not_found sampleMessages memService sampleWorld
  ⟨rfl, rfl, h.1 12 .ErrRecordNotFound rfl rfl ctxAnonymous true {},
    h.2.1 { GalleryID := 12 } .ErrRecordNotFound rfl rfl (ctxOf 1) { bytes := [1] },
    h.2.2.1 { ID := 102 } .ErrRecordNotFound rfl rfl (ctxOf 1),
    h.2.2.2 102 .ErrRecordNotFound rfl rfl (ctxOf 1)⟩

/-- C11: for every `Download` call whose image exists and passes the visibility or
ownership check, if the store's `Images.GetReader` fails with an error that is or wraps
`ErrRecordNotFound`, `Download` returns `ErrEditConflict` with a zero-value image and no
reader; any other `GetReader` error is returned unchanged, also with a zero-value image
and no reader. -/
theorem C11_download_missing_content (is : ImagesService σ) (w : World σ) (ctx : Context)
    (public : Bool) (image : Image) (e : Err)
    (hStored : is.Store.Images.Get w.state image.ID = .ok image)
    (hVisible : (public = true ∧ image.Published = true) ∨
      (public = false ∧ (ContextGetAuth ctx).User.ID = image.UserID))
    (hReader : is.Store.Images.GetReader w.state image.ID = .error e) :
    (errors.Is e .ErrRecordNotFound = true →
      (is.Download ctx public image.ID w).1 = ({}, none, some .ErrEditConflict)) ∧
    (errors.Is e .ErrRecordNotFound = false →
      (is.Download ctx public image.ID w).1 = ({}, none, some e)) := by
  rcases hVisible with ⟨hp, hv⟩ | ⟨hp, hv⟩ <;> subst hp <;> constructor <;> intro hIs <;>
    simp [ImagesService.Download, Store.imagesGet, Store.imagesGetReader, World.log,
      hStored, hReader, hv, hIs]

/-- Instance of C11: user 1 downloads the own image 100, which has no binary content. -/
theorem C11_download_missing_content_witness :
    memStore.Images.Get sampleMem 100
      = .ok { ID := 100, GalleryID := 10, Title := "dawn", UserID := 1,
              ContentType := "image/png" } ∧
    memStore.Images.GetReader sampleMem 100 = .error .ErrRecordNotFound ∧
    (memService.Download (ctxOf 1) false 100 sampleWorld).1
      = ({}, none, some .ErrEditConflict) :=
  ⟨rfl, rfl,
    (C11_download_missing_content memService sampleWorld (ctxOf 1) false
      { ID := 100, GalleryID := 10, Title := "dawn", UserID := 1, ContentType := "image/png" }
      .ErrRecordNotFound rfl (Or.inr ⟨rfl, rfl⟩) rfl).1 rfl⟩

/-- C12: for every `Insert` or `Update` call that passes its authorization checks and
whose store write fails with error `e`, the call returns `ErrEditConflict` if the text of
`e` contains `image_to_galleries_fk`, and otherwise `e` itself, except that `Insert`
turns an `e` that is or wraps `ErrEmptyBytes` into the validation error; the returned
image is the zero value in each case. -/
theorem C12_write_error_translation (msgs : Messages) (is : ImagesService σ)
    (w : World σ) :
    (∀ (ctx : Context) (reader : Reader) (image : Image) (gallery : Gallery) (e : Err),
      is.Store.Galleries.Get w.state image.GalleryID = .ok gallery →
      gallery.UserID = (ContextGetAuth ctx).User.ID →
      (is.Store.Images.Insert w.state reader
        { GalleryID := image.GalleryID
          Title := image.Title
          Caption := image.Caption
          UserID := (ContextGetAuth ctx).User.ID
          ContentType := image.ContentType }).1 = .error e →
      (strings.Contains (e.Error msgs) "image_to_galleries_fk" = true →
        (is.Insert msgs ctx reader image w).1 = ({}, some .ErrEditConflict)) ∧
      (strings.Contains (e.Error msgs) "image_to_galleries_fk" = false →
        errors.Is e .ErrEmptyBytes = true →
        (is.Insert msgs ctx reader image w).1
          = ({}, some (.Validation { Errors := [("body", "no bytes in body")] }))) ∧
      (strings.Contains (e.Error msgs) "image_to_galleries_fk" = false →
        errors.Is e .ErrEmptyBytes = false →
        (is.Insert msgs ctx reader image w).1 = ({}, some e))) ∧
    (∀ (ctx : Context) (inp old : Image) (e : Err),
      is.Store.Images.Get w.state inp.ID = .ok old →
      old.UserID = (ContextGetAuth ctx).User.ID →
      (is.Store.Images.Update w.state
        { old with Title := inp.Title, Caption := inp.Caption }).1 = .error e →
      (strings.Contains (e.Error msgs) "image_to_galleries_fk" = true →
        (is.Update msgs ctx inp w).1 = ({}, some .ErrEditConflict)) ∧
      (strings.Contains (e.Error msgs) "image_to_galleries_fk" = false →
        (is.Update msgs ctx inp w).1 = ({}, some e))) := by
  constructor
  · intro ctx reader image gallery e hGallery hGalleryOwner hInsert
    refine ⟨?_, ?_, ?_⟩
    · intro hMarker
      simp [ImagesService.Insert, Store.galleriesGet, Store.imagesInsert, World.log,
        hGallery, hGalleryOwner, hInsert, hMarker]
    · intro hMarker hEmpty
      simp [ImagesService.Insert, Store.galleriesGet, Store.imagesInsert, World.log,
        hGallery, hGalleryOwner, hInsert, hMarker, hEmpty, Validator.New,
        Validator.AddError]
    · intro hMarker hEmpty
      simp [ImagesService.Insert, Store.galleriesGet, Store.imagesInsert, World.log,
        hGallery, hGalleryOwner, hInsert, hMarker, hEmpty]
  · intro ctx inp old e hStored hOwner hUpdate
    simp only [hOwner] at hUpdate
    constructor
    · intro hMarker
      simp [ImagesService.Update, Store.imagesGet, Store.imagesUpdate, World.log,
        hStored, hOwner, hUpdate, hMarker]
    · intro hMarker
      simp [ImagesService.Update, Store.imagesGet, Store.imagesUpdate, World.log,
        hStored, hOwner, hUpdate, hMarker]

/-- Instance of C12: on the store in memory user 1 inserts an empty payload into the own
gallery 10; on a store whose `Insert` reports a violated gallery constraint and whose
`Update` reports a lost connection user 1 inserts into gallery 10 and updates the own
image 100. -/
theorem C12_write_error_translation_witness :
    memStore.Galleries.Get sampleMem 10 = .ok { ID := 10, UserID := 1 } ∧
    (memStore.Images.Insert sampleMem {} { GalleryID := 10, UserID := 1 }).1
      = .error .ErrEmptyBytes ∧
    (memService.Insert sampleMessages (ctxOf 1) {} { GalleryID := 10 } sampleWorld).1
      = ({}, some (.Validation { Errors := [("body", "no bytes in body")] })) ∧
    (memStoreFailing fkViolation connectionLost connectionLost).Images.Get sampleMem 100
      = .ok { ID := 100, GalleryID := 10, Title := "dawn", UserID := 1,
              ContentType := "image/png" } ∧
    strings.Contains (fkViolation.Error sampleMessages) "image_to_galleries_fk" = true ∧
    strings.Contains (connectionLost.Error sampleMessages) "image_to_galleries_fk" = false ∧
    (ImagesService.Insert sampleMessages
        { Store := memStoreFailing fkViolation connectionLost connectionLost } (ctxOf 1)
        { bytes := [1] } { GalleryID := 10 } sampleWorld).1 = ({}, some .ErrEditConflict) ∧
    (ImagesService.Update sampleMessages
        { Store := memStoreFailing fkViolation connectionLost connectionLost } (ctxOf 1)
        { ID := 100, Title := "noon" } sampleWorld).1 = ({}, some connectionLost) :=
  have hMem := C12_write_error_translation sampleMessages memService sampleWorld
  have hFailing := C12_write_error_translation sampleMessages
    { Store := memStoreFailing fkViolation connectionLost connectionLost } sampleWorld
  ⟨rfl, rfl,
    (hMem.1 (ctxOf 1) {} { GalleryID := 10 } { ID := 10, UserID := 1 } .ErrEmptyBytes
      rfl rfl rfl).2.1 (by decide) rfl,
    rfl, by decide, by decide,
    (hFailing.1 (ctxOf 1) { bytes := [1] } { GalleryID := 10 } { ID := 10, UserID := 1 }
      fkViolation rfl rfl rfl).1 (by decide),
    (hFailing.2 (ctxOf 1) { ID := 100, Title := "noon" }
      { ID := 100, GalleryID := 10, Title := "dawn", UserID := 1, ContentType := "image/png" }
      connectionLost rfl rfl rfl).2 (by decide)⟩

/-- C13, as stated, fails: user 1 updates the own image 100 on a store whose
`Images.Update` reports `ErrForbidden`; `Update` returns `ErrForbidden` although the
mutating store call was made. -/
theorem C13_counterexample :
    (memStoreFailing connectionLost .ErrForbidden connectionLost).Images.Get sampleMem 100
      = .ok { ID := 100, GalleryID := 10, Title := "dawn", UserID := 1,
              ContentType := "image/png" } ∧
    (ImagesService.Update sampleMessages
        { Store := memStoreFailing connectionLost .ErrForbidden connectionLost } (ctxOf 1)
        { ID := 100, Title := "noon" } sampleWorld).1 = ({}, some .ErrForbidden) ∧
    (ImagesService.Update sampleMessages
        { Store := memStoreFailing connectionLost .ErrForbidden connectionLost } (ctxOf 1)
        { ID := 100, Title := "noon" } sampleWorld).2.calls
      = [ .ImagesGet 100,
          .ImagesUpdate { ID := 100, GalleryID := 10, Title := "noon", UserID := 1,
                          ContentType := "image/png" } ] ∧
    Call.isMutation
      (.ImagesUpdate { ID := 100, GalleryID := 10, Title := "noon", UserID := 1,
                       ContentType := "image/png" }) = true :=
  ⟨rfl, rfl, rfl, rfl⟩

/-- C13, amended: in every execution of `Insert`, `Update` or `Delete` the store's
mutating call is made at most once and only after the lookup has found the entity and
the ownership check has passed: the calls made are either the lookup alone, the store
state being left as it was, or the lookup of an entity owned by the caller followed by
the one mutating call.  Whenever the call returns `ErrRecordNotFound` from the lookup or
`ErrForbidden` from the ownership check, no mutating store call was made and the store
state is unchanged. -/
theorem C13_checks_before_mutation (msgs : Messages) (is : ImagesService σ)
    (w : World σ) (ctx : Context) (reader : Reader) (image inp : Image) (imageID : Int) :
    -- Insert
    ((((is.Insert msgs ctx reader image w).2.state = w.state ∧
          (is.Insert msgs ctx reader image w).2.calls
            = w.calls ++ [.GalleriesGet image.GalleryID]) ∨
        (∃ gallery, is.Store.Galleries.Get w.state image.GalleryID = .ok gallery ∧
          gallery.UserID = (ContextGetAuth ctx).User.ID ∧
          (is.Insert msgs ctx reader image w).2.calls =
            w.calls ++
              [ .GalleriesGet image.GalleryID,
                .ImagesInsert reader
                  { GalleryID := image.GalleryID
                    Title := image.Title
                    Caption := image.Caption
                    UserID := (ContextGetAuth ctx).User.ID
                    ContentType := image.ContentType } ])) ∧
      (∀ e, is.Store.Galleries.Get w.state image.GalleryID = .error e →
        errors.Is e .ErrRecordNotFound = true →
        (is.Insert msgs ctx reader image w).1 = ({}, some .ErrRecordNotFound) ∧
        (is.Insert msgs ctx reader image w).2.state = w.state ∧
        (is.Insert msgs ctx reader image w).2.calls
          = w.calls ++ [.GalleriesGet image.GalleryID]) ∧
      (∀ gallery, is.Store.Galleries.Get w.state image.GalleryID = .ok gallery →
        gallery.UserID ≠ (ContextGetAuth ctx).User.ID →
        (is.Insert msgs ctx reader image w).1 = ({}, some .ErrForbidden) ∧
        (is.Insert msgs ctx reader image w).2.state = w.state ∧
        (is.Insert msgs ctx reader image w).2.calls
          = w.calls ++ [.GalleriesGet image.GalleryID])) ∧
    -- Update
    ((((is.Update msgs ctx inp w).2.state = w.state ∧
          (is.Update msgs ctx inp w).2.calls = w.calls ++ [.ImagesGet inp.ID]) ∨
        (∃ old, is.Store.Images.Get w.state inp.ID = .ok old ∧
          old.UserID = (ContextGetAuth ctx).User.ID ∧
          (is.Update msgs ctx inp w).2.calls =
            w.calls ++
              [ .ImagesGet inp.ID,
                .ImagesUpdate { old with Title := inp.Title, Caption := inp.Caption } ])) ∧
      (∀ e, is.Store.Images.Get w.state inp.ID = .error e →
        errors.Is e .ErrRecordNotFound = true →
        (is.Update msgs ctx inp w).1 = ({}, some .ErrRecordNotFound) ∧
        (is.Update msgs ctx inp w).2.state = w.state ∧
        (is.Update msgs ctx inp w).2.calls = w.calls ++ [.ImagesGet inp.ID]) ∧
      (∀ old, is.Store.Images.Get w.state inp.ID = .ok old →
        old.UserID ≠ (ContextGetAuth ctx).User.ID →
        (is.Update msgs ctx inp w).1 = ({}, some .ErrForbidden) ∧
        (is.Update msgs ctx inp w).2.state = w.state ∧
        (is.Update msgs ctx inp w).2.calls = w.calls ++ [.ImagesGet inp.ID])) ∧
    -- Delete
    ((((is.Delete ctx imageID w).2.state = w.state ∧
          (is.Delete ctx imageID w).2.calls = w.calls ++ [.ImagesGet imageID]) ∨
        (∃ stored, is.Store.Images.Get w.state imageID = .ok stored ∧
          stored.UserID = (ContextGetAuth ctx).User.ID ∧
          (is.Delete ctx imageID w).2.calls
            = w.calls ++ [.ImagesGet imageID, .ImagesDelete imageID])) ∧
      (∀ e, is.Store.Images.Get w.state imageID = .error e →
        errors.Is e .ErrRecordNotFound = true →
        (is.Delete ctx imageID w).1 = ({}, some .ErrRecordNotFound) ∧
        (is.Delete ctx imageID w).2.state = w.state ∧
        (is.Delete ctx imageID w).2.calls = w.calls ++ [.ImagesGet imageID]) ∧
      (∀ stored, is.Store.Images.Get w.state imageID = .ok stored →
        stored.UserID ≠ (ContextGetAuth ctx).User.ID →
        (is.Delete ctx imageID w).1 = ({}, some .ErrForbidden) ∧
        (is.Delete ctx imageID w).2.state = w.state ∧
        (is.Delete ctx imageID w).2.calls = w.calls ++ [.ImagesGet imageID])) := by
  refine ⟨?_, ?_, ?_⟩
  · rcases hL : is.Store.Galleries.Get w.state image.GalleryID with e | gallery
    · by_cases hIs : errors.Is e .ErrRecordNotFound = true <;>
        simp [ImagesService.Insert, Store.galleriesGet, hL, hIs, World.log]
    · by_cases hO : gallery.UserID = (ContextGetAuth ctx).User.ID
      · rcases hW : (is.Store.Images.Insert w.state reader
            { GalleryID := image.GalleryID
              Title := image.Title
              Caption := image.Caption
              UserID := (ContextGetAuth ctx).User.ID
              ContentType := image.ContentType }).1 with e | stored
        · by_cases hM : strings.Contains (e.Error msgs) "image_to_galleries_fk" = true <;>
            by_cases hE : errors.Is e .ErrEmptyBytes = true <;>
            simp [ImagesService.Insert, Store.galleriesGet, Store.imagesInsert, hL, hO, hW,
              hM, hE, World.log]
        · simp [ImagesService.Insert, Store.galleriesGet, Store.imagesInsert, hL, hO, hW,
            World.log]
      · simp [ImagesService.Insert, Store.galleriesGet, hL, hO, World.log]
  · rcases hL : is.Store.Images.Get w.state inp.ID with e | old
    · by_cases hIs : errors.Is e .ErrRecordNotFound = true <;>
        simp [ImagesService.Update, Store.imagesGet, hL, hIs, World.log]
    · by_cases hO : old.UserID = (ContextGetAuth ctx).User.ID
      · rcases hW : (is.Store.Images.Update w.state
            { old with Title := inp.Title, Caption := inp.Caption }).1 with e | stored
        · simp only [hO] at hW
          by_cases hM : strings.Contains (e.Error msgs) "image_to_galleries_fk" = true <;>
            simp [ImagesService.Update, Store.imagesGet, Store.imagesUpdate, hL, hO, hW,
              hM, World.log]
        · simp only [hO] at hW
          simp [ImagesService.Update, Store.imagesGet, Store.imagesUpdate, hL, hO, hW,
            World.log]
      · simp [ImagesService.Update, Store.imagesGet, hL, hO, World.log]
  · rcases hL : is.Store.Images.Get w.state imageID with e | stored
    · by_cases hIs : errors.Is e .ErrRecordNotFound = true <;>
        simp [ImagesService.Delete, Store.imagesGet, hL, hIs, World.log]
    · by_cases hO : stored.UserID = (ContextGetAuth ctx).User.ID
      · rcases hW : (is.Store.Images.Delete w.state imageID).1 with _ | e
        · simp [ImagesService.Delete, Store.imagesGet, Store.imagesDelete, hL, hO, hW,
            World.log]
        · by_cases hIs : errors.Is e .ErrRecordNotFound = true <;>
            simp [ImagesService.Delete, Store.imagesGet, Store.imagesDelete, hL, hO, hW,
              hIs, World.log]
      · simp [ImagesService.Delete, Store.imagesGet, hL, hO, World.log]

/-- Instance of C13, amended, on the store in memory: user 2 is refused the update and the
deletion of image 100 of user 1, and an insertion into the missing gallery 12 finds no
gallery; in each case only the lookup was made and the state is as before. -/
theorem C13_checks_before_mutation_witness :
    memStore.Galleries.Get sampleMem 12 = .error .ErrRecordNotFound ∧
    memStore.Images.Get sampleMem 100
      = .ok { ID := 100, GalleryID := 10, Title := "dawn", UserID := 1,
              ContentType := "image/png" } ∧
    ((memService.Insert sampleMessages (ctxOf 2) { bytes := [1] } { GalleryID := 12 }
          sampleWorld).1 = ({}, some .ErrRecordNotFound) ∧
      (memService.Insert sampleMessages (ctxOf 2) { bytes := [1] } { GalleryID := 12 }
          sampleWorld).2.state = sampleMem ∧
      (memService.Insert sampleMessages (ctxOf 2) { bytes := [1] } { GalleryID := 12 }
          sampleWorld).2.calls = [] ++ [.GalleriesGet 12]) ∧
    ((memService.Update sampleMessages (ctxOf 2) { ID := 100, Title := "mine" }
          sampleWorld).1 = ({}, some .ErrForbidden) ∧
      (memService.Update sampleMessages (ctxOf 2) { ID := 100, Title := "mine" }
          sampleWorld).2.state = sampleMem ∧
      (memService.Update sampleMessages (ctxOf 2) { ID := 100, Title := "mine" }
          sampleWorld).2.calls = [] ++ [.ImagesGet 100]) ∧
    ((memService.Delete (ctxOf 2) 100 sampleWorld).1 = ({}, some .ErrForbidden) ∧
      (memService.Delete (ctxOf 2) 100 sampleWorld).2.state = sampleMem ∧
      (memService.Delete (ctxOf 2) 100 sampleWorld).2.calls = [] ++ [.ImagesGet 100]) :=
  have h := C13_checks_before_mutation sampleMessages memService sampleWorld (ctxOf 2)
    { bytes := [1] } { GalleryID := 12 } { ID := 100, Title := "mine" } 100
  ⟨rfl, rfl, h.1.2.1 .ErrRecordNotFound rfl rfl,
    h.2.1.2.2
      { ID := 100, GalleryID := 10, Title := "dawn", UserID := 1, ContentType := "image/png" }
      rfl (by decide),
    h.2.2.2.2
      { ID := 100, GalleryID := 10, Title := "dawn", UserID := 1, ContentType := "image/png" }
      rfl (by decide)⟩

/-- C16: for every store state and every filter, no image in the list returned by
`ListAllPublic` has `Published = false`, the store's `Images.GetAllPublic` being the one
modelled from the spec, with any page function that selects among the images it is
given. -/
theorem C16_list_all_public_published (page : Input → List Image → List Image × Meta)
    (hPage : ∀ filter images image, image ∈ (page filter images).1 → image ∈ images)
    (m : Mem) (calls : List Call) (ctx : Context) (filter : Input) :
    ∀ image ∈ (ImagesService.ListAllPublic { Store := memStorePaged page } ctx filter
        { state := m, calls := calls }).1.1, image.Published ≠ false := by
  intro image hMem
  simp only [ImagesService.ListAllPublic, Store.imagesGetAllPublic, memStorePaged,
    Mem.GetAllPublic] at hMem
  have h := hPage filter _ image hMem
  simp only [List.mem_filter] at h
  simp [h.2]

/-- Instance of C16: of the two images of `sampleMem` only the published image 101 is
listed, for a filter that asks for five images. -/
theorem C16_list_all_public_published_witness :
    (∀ filter images image, image ∈ (samplePage filter images).1 → image ∈ images) ∧
    (ImagesService.ListAllPublic { Store := memStorePaged samplePage } ctxAnonymous
        { raw := [5] } sampleWorld).1.1
      = [ { ID := 101, GalleryID := 10, Title := "dusk", UserID := 1,
            ContentType := "image/png", Published := true } ] ∧
    (∀ image ∈ (ImagesService.ListAllPublic { Store := memStorePaged samplePage }
        ctxAnonymous { raw := [5] } sampleWorld).1.1, image.Published ≠ false) :=
  have hPage : ∀ filter images image,
      image ∈ (samplePage filter images).1 → image ∈ images := by
    intro filter images image h
    unfold samplePage at h
    split at h
    · exact h
    · exact List.mem_of_mem_take h
  ⟨hPage, rfl,
    C16_list_all_public_published samplePage hPage sampleMem [] ctxAnonymous { raw := [5] }⟩

/-- C19: public-path results do not depend on the caller: for every store state and any
two request contexts, anonymous or not, `ListAllPublic`, and `ListForGallery`, `Get` and
`Download` called with `public = true`, return the same results and errors and leave the
same call log and store state. -/
theorem C19_public_path_caller_independent (is : ImagesService σ) (w : World σ)
    (ctx₁ ctx₂ : Context) (filter : Input) (galleryID imageID : Int) :
    is.ListAllPublic ctx₁ filter w = is.ListAllPublic ctx₂ filter w ∧
    is.ListForGallery ctx₁ true galleryID filter w
      = is.ListForGallery ctx₂ true galleryID filter w ∧
    is.Get ctx₁ true imageID w = is.Get ctx₂ true imageID w ∧
    is.Download ctx₁ true imageID w = is.Download ctx₂ true imageID w := by
  refine ⟨rfl, ?_, ?_, ?_⟩
  · simp [ImagesService.ListForGallery]
  · simp [ImagesService.Get]
  · simp [ImagesService.Download]

/-! ### The response pipeline -/

/-- The header loop appends the entries of the extra headers to the header map and
touches nothing else. -/
theorem copyHeaders_eq (w : ResponseWriter) (headers : Header) :
    copyHeaders w headers
      = { w with header := { entries := w.header.entries ++ headers.entries } } := by
  obtain ⟨entries⟩ := headers
  unfold copyHeaders
  simp only
  induction entries generalizing w with
  | nil => simp
  | cons kv rest ih =>
    rw [List.foldl_cons, ih]
    simp [Header.assign]

/-- The value a map holds after further assignments. -/
theorem Header.get_append (h : Header) (more : List (String × List String)) (key : String) :
    Header.get { entries := h.entries ++ more } key
      = match Header.get { entries := more } key with
        | some value => some value
        | none => h.get key := by
  simp only [Header.get, List.reverse_append, List.find?_append]
  cases List.find? (fun kv => decide (kv.1 = key)) more.reverse <;> simp

/-- What `writeJSON` does when the mapping can be encoded. -/
theorem writeJSON_encoded (w : ResponseWriter) (status : Int) (data : env) (headers : Header)
    (js : List Nat) (hMarshal : json.MarshalIndent data.value "" "  " = .ok js) :
    writeJSON w status data headers
      = ResponseWriter.Write
          (ResponseWriter.WriteHeader
            { w with
              header :=
                { entries := w.header.entries ++ headers.entries
                    ++ [("Content-Type", ["application/json"])] } }
            status)
          (js ++ [10]) := by
  simp [writeJSON, hMarshal, copyHeaders_eq, Header.Set, Header.assign]

/-- What `writeJSON` does when the mapping cannot be encoded. -/
theorem writeJSON_not_encoded (w : ResponseWriter) (status : Int) (data : env)
    (headers : Header) (e : Err)
    (hMarshal : json.MarshalIndent data.value "" "  " = .error e) :
    writeJSON w status data headers = (some e, w) := by
  simp [writeJSON, hMarshal]

/-- A slice or a map ends with its closing bracket. -/
theorem json.block_closing (opening closing : Char) (pfx indent : String) (depth : Nat)
    (items : List (List Char)) :
    ∃ front, json.block opening closing pfx indent depth items = front ++ [closing] := by
  cases items with
  | nil => exact ⟨[opening], rfl⟩
  | cons item rest =>
    refine ⟨opening :: '\n' ::
      json.lines (json.lineStart pfx indent (depth + 1)) (item :: rest)
        ++ '\n' :: json.lineStart pfx indent depth, ?_⟩
    simp [json.block]

/-- The encoding of a map ends with the byte of the closing brace. -/
theorem json.MarshalIndent_object_closing (data : List (String × Value))
    (pfx indent : String) (js : List Nat)
    (hMarshal : json.MarshalIndent (.object data) pfx indent = .ok js) :
    ∃ front, js = front ++ [125] := by
  unfold json.MarshalIndent at hMarshal
  rw [json.encode] at hMarshal
  split at hMarshal
  · simp at hMarshal
  · rename_i cs hcs
    split at hcs
    · simp at hcs
    · rename_i items _
      obtain ⟨front, hfront⟩ := json.block_closing '\x7b' '\x7d' pfx indent 0 items
      simp only [Except.ok.injEq] at hcs hMarshal
      refine ⟨utf8 front, ?_⟩
      rw [← hMarshal, ← hcs, hfront]
      simp [utf8, utf8Char]

/-- The encoding of a mapping does not end with a newline: its last byte is the closing
brace, or the last letter of `null` for the nil map. -/
theorem json.MarshalIndent_env_ending (data : env) (pfx indent : String) (js : List Nat)
    (hMarshal : json.MarshalIndent data.value pfx indent = .ok js) :
    ∃ front last, js = front ++ [last] ∧ last ≠ 10 := by
  cases data with
  | nil =>
    have hNull : json.MarshalIndent env.nil.value pfx indent = .ok (utf8 "null".toList) := rfl
    rw [hNull] at hMarshal
    simp only [Except.ok.injEq] at hMarshal
    exact ⟨[110, 117, 108], 108, by rw [← hMarshal]; rfl, by decide⟩
  | entries fields =>
    obtain ⟨front, hfront⟩ := json.MarshalIndent_object_closing fields pfx indent js hMarshal
    exact ⟨front, 125, hfront, by decide⟩

/-- What `Write` leaves when the connection takes the bytes. -/
theorem ResponseWriter.Write_takes (w : ResponseWriter) (p : List Nat)
    (hTakes : w.takes p.length = true) :
    (w.Write p).1 = none ∧ (w.Write p).2.body = w.body ++ p := by
  unfold ResponseWriter.takes at hTakes
  unfold ResponseWriter.Write
  cases hr : w.room with
  | none => simp
  | some k =>
    rw [hr] at hTakes
    simp only [decide_eq_true_eq] at hTakes
    simp [hTakes]

/-- What `Write` reports when the connection does not take the bytes. -/
theorem ResponseWriter.Write_breaks (w : ResponseWriter) (p : List Nat)
    (hTakes : w.takes p.length = false) :
    (w.Write p).1 = some w.broken := by
  unfold ResponseWriter.takes at hTakes
  unfold ResponseWriter.Write
  cases hr : w.room with
  | none => rw [hr] at hTakes; simp at hTakes
  | some k =>
    rw [hr] at hTakes
    simp only [decide_eq_false_iff_not] at hTakes
    simp [hTakes]

/-- What `Write` leaves of the header, the status and the call log. -/
theorem ResponseWriter.Write_frame (w : ResponseWriter) (p : List Nat) :
    (w.Write p).2.header = w.header ∧
    (w.Write p).2.calls = w.calls ++ [.Write p] ∧
    (w.Write p).2.status = some (w.status.getD http.StatusOK) := by
  unfold ResponseWriter.Write
  cases hr : w.room with
  | none => cases hs : w.status <;> simp
  | some k =>
    by_cases hk : p.length ≤ k <;> cases hs : w.status <;> simp [hk]

/-- C14: for every status code, every field mapping that can be encoded, the nil map
among them, and every set of extra headers, `writeJSON` calls `WriteHeader` with the
given status and then `Write` with the 2-space-indented JSON encoding of the mapping
followed by one newline, the encoding itself not ending with a newline; the response
header map then holds `application/json` for `Content-Type`, also when the extra headers
supply another value, and for every other name the value the extra headers give it.  On
a response that has sent no status the given status is the one sent; when the
connection takes the bytes the call succeeds and the body grows by the encoding and the
newline.  For the mapping `{"status_code": 200}` with status 200, on a response not used
before, the body is exactly `{\n  "status_code": 200\n}\n`; for the nil map it is
`null\n`. -/
theorem C14_writeJSON (w : ResponseWriter) (status : Int) (data : env) (headers : Header)
    (js : List Nat) (hMarshal : json.MarshalIndent data.value "" "  " = .ok js) :
    (writeJSON w status data headers).2.calls
      = w.calls ++ [.WriteHeader status, .Write (js ++ [10])] ∧
    (∃ front last, js = front ++ [last] ∧ last ≠ 10) ∧
    (writeJSON w status data headers).2.header.get "Content-Type"
      = some ["application/json"] ∧
    (∀ key value, key ≠ "Content-Type" → headers.get key = some value →
      (writeJSON w status data headers).2.header.get key = some value) ∧
    (w.status = none → (writeJSON w status data headers).2.status = some status) ∧
    (w.takes (js.length + 1) = true →
      (writeJSON w status data headers).1 = none ∧
      (writeJSON w status data headers).2.body = w.body ++ js ++ [10]) ∧
    (∀ extra : Header,
      (writeJSON {} 200 (.entries [("status_code", .int 200)]) extra).2.body
        = utf8 "\x7b\n  \"status_code\": 200\n\x7d\n".toList ∧
      (writeJSON {} 200 (.entries [("status_code", .int 200)]) extra).2.status = some 200 ∧
      (writeJSON {} 200 (.entries [("status_code", .int 200)]) extra).2.header.get
          "Content-Type"
        = some ["application/json"] ∧
      (writeJSON {} 200 .nil extra).2.body = utf8 "null\n".toList) := by
  have hHeader : ∀ (w : ResponseWriter) (status : Int) (data : env) (headers : Header)
      (js : List Nat), json.MarshalIndent data.value "" "  " = .ok js →
      (writeJSON w status data headers).2.header
        = { entries := (w.header.entries ++ headers.entries)
              ++ [("Content-Type", ["application/json"])] } := by
    intro w status data headers js h
    rw [writeJSON_encoded w status data headers js h, (ResponseWriter.Write_frame _ _).1]
    simp [ResponseWriter.WriteHeader]
  refine ⟨?_, json.MarshalIndent_env_ending data "" "  " js hMarshal, ?_, ?_, ?_, ?_, ?_⟩
  · rw [writeJSON_encoded w status data headers js hMarshal,
      (ResponseWriter.Write_frame _ _).2.1]
    simp [ResponseWriter.WriteHeader]
  · rw [hHeader w status data headers js hMarshal, Header.get_append]
    rfl
  · intro key value hKey hValue
    rw [hHeader w status data headers js hMarshal, Header.get_append]
    have hOther : Header.get { entries := [("Content-Type", ["application/json"])] } key
        = none := by
      simp [Header.get, Ne.symm hKey]
    rw [hOther]
    have := Header.get_append w.header headers.entries key
    simp only at this ⊢
    rw [this]
    have hv : Header.get { entries := headers.entries } key = some value := hValue
    rw [hv]
  · intro hStatus
    rw [writeJSON_encoded w status data headers js hMarshal,
      (ResponseWriter.Write_frame _ _).2.2]
    simp [ResponseWriter.WriteHeader, hStatus]
  · intro hTakes
    rw [writeJSON_encoded w status data headers js hMarshal]
    have h := ResponseWriter.Write_takes
      (ResponseWriter.WriteHeader
        { w with
          header :=
            { entries := w.header.entries ++ headers.entries
                ++ [("Content-Type", ["application/json"])] } }
        status)
      (js ++ [10]) (by simpa [ResponseWriter.takes, ResponseWriter.WriteHeader] using hTakes)
    refine ⟨h.1, ?_⟩
    rw [h.2]
    simp [ResponseWriter.WriteHeader]
  · intro extra
    have hEnc : json.MarshalIndent (env.entries [("status_code", .int 200)]).value "" "  "
        = .ok (utf8 "\x7b\n  \"status_code\": 200\n\x7d".toList) := rfl
    have hNil : json.MarshalIndent env.nil.value "" "  " = .ok (utf8 "null".toList) := rfl
    refine ⟨?_, ?_, ?_, ?_⟩
    · rw [writeJSON_encoded _ _ _ _ _ hEnc]
      rfl
    · rw [writeJSON_encoded _ _ _ _ _ hEnc]
      rfl
    · rw [hHeader _ _ _ _ _ hEnc, Header.get_append]
      rfl
    · rw [writeJSON_encoded _ _ _ _ _ hNil]
      rfl

/-- Instance of C14: status 201, a mapping with one string field, and extra headers that
name another content type and a request identifier, on a response not used before. -/
theorem C14_writeJSON_witness :
    json.MarshalIndent (.object [("title", .str "dawn")]) "" "  "
      = .ok (utf8 "\x7b\n  \"title\": \"dawn\"\n\x7d".toList) ∧
    (writeJSON {} 201 (.entries [("title", .str "dawn")]) sampleHeaders).2.calls
      = [] ++ [.WriteHeader 201, .Write (utf8 "\x7b\n  \"title\": \"dawn\"\n\x7d".toList ++ [10])] ∧
    (writeJSON {} 201 (.entries [("title", .str "dawn")]) sampleHeaders).2.header.get "Content-Type"
      = some ["application/json"] ∧
    (writeJSON {} 201 (.entries [("title", .str "dawn")]) sampleHeaders).2.header.get "X-Request-Id"
      = some ["r-17"] ∧
    (writeJSON {} 201 (.entries [("title", .str "dawn")]) sampleHeaders).2.status = some 201 ∧
    (writeJSON {} 201 (.entries [("title", .str "dawn")]) sampleHeaders).2.body
      = [] ++ utf8 "\x7b\n  \"title\": \"dawn\"\n\x7d".toList ++ [10] :=
  have h := C14_writeJSON {} 201 (.entries [("title", .str "dawn")]) sampleHeaders
    (utf8 "\x7b\n  \"title\": \"dawn\"\n\x7d".toList) rfl
  ⟨rfl, h.1, h.2.2.1, h.2.2.2.1 "X-Request-Id" ["r-17"] (by decide) rfl, h.2.2.2.2.1 rfl,
    (h.2.2.2.2.2.1 rfl).2⟩

/-- C15: for every reader that yields its bytes and then fails with an error, `streamBytes`
on a response whose connection takes those bytes leaves exactly them, in order, after
the body and leaves the trace record with `HttpStatus = 500` and `Err` that error; when
the reader ends without error the body has grown by all its bytes and the trace record
has `HttpStatus = 200` and no error.  On any response the trace record has
`HttpStatus = 500` and `Err` the copy error if the copy fails, whether that error is a
network error or not, and `HttpStatus = 200` and no error if it does not; and `Close` is
called exactly once if the reader is a closer, and not at all otherwise. -/
theorem C15_streamBytes (app : application) (w : ResponseWriter) (r : Request)
    (reader : ReaderValue) (headers : Header) :
    (w.takes reader.source.bytes.length = true →
      (app.streamBytes w r reader headers).w.body = w.body ++ reader.source.bytes ∧
      (∀ e, reader.source.fail = some e →
        (app.streamBytes w r reader headers).r.trace.HttpStatus = 500 ∧
        (app.streamBytes w r reader headers).r.trace.Err = some e) ∧
      (reader.source.fail = none →
        (app.streamBytes w r reader headers).r.trace.HttpStatus = 200 ∧
        (app.streamBytes w r reader headers).r.trace.Err = none)) ∧
    (∀ e, (io.Copy (copyHeaders w headers) reader.source).1 = some e →
      (app.streamBytes w r reader headers).r.trace.HttpStatus = 500 ∧
      (app.streamBytes w r reader headers).r.trace.Err = some e) ∧
    ((io.Copy (copyHeaders w headers) reader.source).1 = none →
      (app.streamBytes w r reader headers).r.trace.HttpStatus = 200 ∧
      (app.streamBytes w r reader headers).r.trace.Err = none) ∧
    (∀ rc, reader = .readCloser rc → (app.streamBytes w r reader headers).closes = 1) ∧
    (∀ rd, reader = .reader rd → (app.streamBytes w r reader headers).closes = 0) := by
  have hCloses : ∀ (a : application) (id : String),
      (∀ rc, reader = .readCloser rc → (a.closeReader id reader).2 = 1) ∧
      (∀ rd, reader = .reader rd → (a.closeReader id reader).2 = 0) := by
    intro a id
    constructor
    · intro rc h
      subst h
      cases hc : rc.closeErr <;> simp [application.closeReader, hc]
    · intro rd h
      subst h
      rfl
  have hAny : ∀ out : Option Err × ResponseWriter,
      io.Copy (copyHeaders w headers) reader.source = out →
      (app.streamBytes w r reader headers).w = out.2 ∧
      (∀ e, out.1 = some e →
        (app.streamBytes w r reader headers).r.trace.HttpStatus = 500 ∧
        (app.streamBytes w r reader headers).r.trace.Err = some e) ∧
      (out.1 = none →
        (app.streamBytes w r reader headers).r.trace.HttpStatus = 200 ∧
        (app.streamBytes w r reader headers).r.trace.Err = none) ∧
      (∀ rc, reader = .readCloser rc → (app.streamBytes w r reader headers).closes = 1) ∧
      (∀ rd, reader = .reader rd → (app.streamBytes w r reader headers).closes = 0) := by
    intro out hOut
    obtain ⟨err, w'⟩ := out
    unfold application.streamBytes
    simp only [hOut]
    cases err with
    | none =>
      refine ⟨rfl, ?_, ?_, (hCloses _ _).1, (hCloses _ _).2⟩
      · intro e he; cases he
      · intro _; exact ⟨rfl, rfl⟩
    | some e =>
      refine ⟨rfl, ?_, ?_, (hCloses _ _).1, (hCloses _ _).2⟩
      · intro e' he
        cases he
        exact ⟨rfl, rfl⟩
      · intro h; cases h
  obtain ⟨hW, hFail, hClean, hCloser, hPlain⟩ := hAny _ rfl
  refine ⟨?_, hFail, hClean, hCloser, hPlain⟩
  intro hTakes
  have hCopy : (io.Copy (copyHeaders w headers) reader.source).1 = reader.source.fail ∧
      (io.Copy (copyHeaders w headers) reader.source).2.body
        = w.body ++ reader.source.bytes := by
    unfold io.Copy
    cases hb : reader.source.bytes with
    | nil => simp [copyHeaders_eq]
    | cons b bs =>
      have hw := ResponseWriter.Write_takes (copyHeaders w headers) (b :: bs)
        (by rw [hb] at hTakes; simpa [copyHeaders_eq, ResponseWriter.takes] using hTakes)
      have hcb : (copyHeaders w headers).body = w.body := by rw [copyHeaders_eq]
      rcases hres : (copyHeaders w headers).Write (b :: bs) with ⟨err, w'⟩
      rw [hres] at hw
      obtain ⟨herr, hbody⟩ := hw
      simp only at herr hbody
      subst herr
      simp only [hres]
      simp [hbody, hcb]
  refine ⟨by rw [hW]; exact hCopy.2, ?_, ?_⟩
  · intro e he
    exact hFail e (by rw [hCopy.1]; exact he)
  · intro he
    exact hClean (by rw [hCopy.1]; exact he)

/-- The call of `writeJSON` succeeds exactly when the mapping can be encoded and the
connection takes the encoding and the newline. -/
theorem writeJSON_succeeds_iff (w : ResponseWriter) (status : Int) (data : env)
    (headers : Header) :
    (writeJSON w status data headers).1 = none ↔
      ∃ js, json.MarshalIndent data.value "" "  " = .ok js ∧
        w.takes (js.length + 1) = true := by
  rcases hm : json.MarshalIndent data.value "" "  " with e | js
  · rw [writeJSON_not_encoded w status data headers e hm]
    simp
  · rw [writeJSON_encoded w status data headers js hm]
    have hRoom : ∀ n, ResponseWriter.takes
        (ResponseWriter.WriteHeader
          { w with
            header :=
              { entries := w.header.entries ++ headers.entries
                  ++ [("Content-Type", ["application/json"])] } }
          status) n = w.takes n := by
      intro n
      simp [ResponseWriter.takes, ResponseWriter.WriteHeader]
    cases ht : w.takes (js.length + 1)
    · have hb := ResponseWriter.Write_breaks
        (ResponseWriter.WriteHeader
          { w with
            header :=
              { entries := w.header.entries ++ headers.entries
                  ++ [("Content-Type", ["application/json"])] } }
          status)
        (js ++ [10]) (by rw [hRoom]; simpa using ht)
      rw [hb]
      simp [ht]
    · have hb := ResponseWriter.Write_takes
        (ResponseWriter.WriteHeader
          { w with
            header :=
              { entries := w.header.entries ++ headers.entries
                  ++ [("Content-Type", ["application/json"])] } }
          status)
        (js ++ [10]) (by rw [hRoom]; simpa using ht)
      rw [hb.1]
      simp [ht]

/-- The calls `writeJSON` makes for a mapping that can be encoded, and the body it leaves
when the connection takes the bytes. -/
theorem writeJSON_calls_and_body (w : ResponseWriter) (status : Int) (data : env)
    (headers : Header) (js : List Nat)
    (hMarshal : json.MarshalIndent data.value "" "  " = .ok js) :
    (writeJSON w status data headers).2.calls
        = w.calls ++ [.WriteHeader status, .Write (js ++ [10])] ∧
      (w.takes (js.length + 1) = true →
        (writeJSON w status data headers).2.body = w.body ++ js ++ [10]) := by
  constructor
  · rw [writeJSON_encoded w status data headers js hMarshal,
      (ResponseWriter.Write_frame _ _).2.1]
    simp [ResponseWriter.WriteHeader]
  · intro hTakes
    rw [writeJSON_encoded w status data headers js hMarshal]
    have h := ResponseWriter.Write_takes
      (ResponseWriter.WriteHeader
        { w with
          header :=
            { entries := w.header.entries ++ headers.entries
                ++ [("Content-Type", ["application/json"])] } }
        status)
      (js ++ [10]) (by simpa [ResponseWriter.takes, ResponseWriter.WriteHeader] using hTakes)
    rw [h.2]
    simp [ResponseWriter.WriteHeader]

/-- Instance of C15: a closer that yields three bytes and then fails with a network
error, streamed to a response not used before. -/
theorem C15_streamBytes_witness :
    ResponseWriter.takes {} failingReadCloser.bytes.length = true ∧
    (application.streamBytes {} {} sampleRequest (.readCloser failingReadCloser)
        sampleHeaders).w.body = [] ++ [7, 8, 9] ∧
    (application.streamBytes {} {} sampleRequest (.readCloser failingReadCloser)
        sampleHeaders).r.trace.HttpStatus = 500 ∧
    (application.streamBytes {} {} sampleRequest (.readCloser failingReadCloser)
        sampleHeaders).r.trace.Err
      = some (.OpError "read tcp: connection reset by peer") ∧
    (application.streamBytes {} {} sampleRequest (.readCloser failingReadCloser)
        sampleHeaders).closes = 1 :=
  have h := C15_streamBytes {} {} sampleRequest (.readCloser failingReadCloser)
    sampleHeaders
  ⟨rfl, (h.1 rfl).1, ((h.1 rfl).2.1 _ rfl).1, ((h.1 rfl).2.1 _ rfl).2,
    h.2.2.2.1 failingReadCloser rfl⟩

/-- C17: for every prior trace record, status and mapping, the response `sendJSON` leaves
is the one a single call of `writeJSON` leaves, so that at most one status and one body
were written; the trace record has `HttpStatus` the given status and no error if that
call succeeded, which it does exactly when the mapping can be encoded and the
connection takes the bytes, and `HttpStatus = 500` and the error of the call as `Err`
otherwise; `ID` and `Message` are those of the prior record in both cases. -/
theorem C17_sendJSON (app : application) (w : ResponseWriter) (r : Request) (status : Int)
    (data : env) (headers : Header) :
    (app.sendJSON w r status data headers).w = (writeJSON w status data headers).2 ∧
    ((app.sendJSON w r status data headers).w.calls = w.calls ∨
      ∃ js, (app.sendJSON w r status data headers).w.calls
        = w.calls ++ [.WriteHeader status, .Write js]) ∧
    ((writeJSON w status data headers).1 = none ↔
      ∃ js, json.MarshalIndent data.value "" "  " = .ok js ∧
        w.takes (js.length + 1) = true) ∧
    ((writeJSON w status data headers).1 = none →
      (app.sendJSON w r status data headers).r.trace.HttpStatus = status ∧
      (app.sendJSON w r status data headers).r.trace.Err = none) ∧
    (∀ e, (writeJSON w status data headers).1 = some e →
      (app.sendJSON w r status data headers).r.trace.HttpStatus = 500 ∧
      (app.sendJSON w r status data headers).r.trace.Err = some e) ∧
    (app.sendJSON w r status data headers).r.trace.ID = r.trace.ID ∧
    (app.sendJSON w r status data headers).r.trace.Message = r.trace.Message := by
  have hSend : ∀ out : Option Err × ResponseWriter, writeJSON w status data headers = out →
      (app.sendJSON w r status data headers).w = out.2 ∧
      (out.1 = none →
        (app.sendJSON w r status data headers).r.trace.HttpStatus = status ∧
        (app.sendJSON w r status data headers).r.trace.Err = none) ∧
      (∀ e, out.1 = some e →
        (app.sendJSON w r status data headers).r.trace.HttpStatus = 500 ∧
        (app.sendJSON w r status data headers).r.trace.Err = some e) ∧
      (app.sendJSON w r status data headers).r.trace.ID = r.trace.ID ∧
      (app.sendJSON w r status data headers).r.trace.Message = r.trace.Message := by
    intro out hOut
    obtain ⟨err, w'⟩ := out
    unfold application.sendJSON
    simp only [hOut]
    cases err <;>
      simp [tracing.TraceFromRequestCtx, http.StatusInternalServerError]
  obtain ⟨hW, hOk, hErr, hID, hMessage⟩ := hSend _ rfl
  refine ⟨hW, ?_, ?_, hOk, hErr, hID, hMessage⟩
  · rw [hW]
    rcases hm : json.MarshalIndent data.value "" "  " with e | js
    · left
      rw [writeJSON_not_encoded w status data headers e hm]
    · right
      refine ⟨js ++ [10], ?_⟩
      rw [writeJSON_encoded w status data headers js hm,
        (ResponseWriter.Write_frame _ _).2.1]
      simp [ResponseWriter.WriteHeader]
  · exact writeJSON_succeeds_iff w status data headers

/-- Instance of C17 on a request whose trace record holds earlier values: a mapping that
is sent, and the same mapping on a connection that breaks after four bytes. -/
theorem C17_sendJSON_witness :
    (writeJSON {} 201 (.entries [("title", .str "dawn")]) {}).1 = none ∧
    (application.sendJSON {} {} sampleRequest 201 (.entries [("title", .str "dawn")]) {}).r.trace.HttpStatus
      = 201 ∧
    (application.sendJSON {} {} sampleRequest 201 (.entries [("title", .str "dawn")]) {}).r.trace.Err
      = none ∧
    (writeJSON (breakingAfter 4) 201 (.entries [("title", .str "dawn")]) {}).1
      = some (.OpError "write: broken pipe") ∧
    (application.sendJSON {} (breakingAfter 4) sampleRequest 201 (.entries [("title", .str "dawn")])
        {}).r.trace.HttpStatus = 500 ∧
    (application.sendJSON {} (breakingAfter 4) sampleRequest 201 (.entries [("title", .str "dawn")])
        {}).r.trace.Err = some (.OpError "write: broken pipe") ∧
    (application.sendJSON {} (breakingAfter 4) sampleRequest 201 (.entries [("title", .str "dawn")])
        {}).r.trace.ID = "t-1" ∧
    (application.sendJSON {} (breakingAfter 4) sampleRequest 201 (.entries [("title", .str "dawn")])
        {}).r.trace.Message = .str "earlier" :=
  have hSent := C17_sendJSON {} {} sampleRequest 201 (.entries [("title", .str "dawn")]) {}
  have hBroken :=
    C17_sendJSON {} (breakingAfter 4) sampleRequest 201 (.entries [("title", .str "dawn")]) {}
  ⟨rfl, (hSent.2.2.2.1 rfl).1, (hSent.2.2.2.1 rfl).2, rfl,
    (hBroken.2.2.2.2.1 _ rfl).1, (hBroken.2.2.2.2.1 _ rfl).2, hBroken.2.2.2.2.2.1,
    hBroken.2.2.2.2.2.2⟩

/-- C18: for every error response `{message, status, err}`, `sendJSONError` makes one call
of `writeJSON` with the status, the mapping of exactly the two fields `status_code`, the
status, and `error`, the message, and no extra header, so that the status and the
encoding of that mapping with a newline are what is written, and what the body receives
when the connection takes it.  If that call succeeds the trace record is left with
`HttpStatus` the status, `Message` the message and `Err` the error of the response; if it
fails the trace record has `HttpStatus = 500` and the error of the call as `Err`, while
`Message` is still the message. -/
theorem C18_sendJSONError (app : application) (w : ResponseWriter) (r : Request)
    (resp : errResponse) :
    (app.sendJSONError w r resp).w
      = (writeJSON w resp.status
          (.entries [("status_code", .int resp.status), ("error", resp.message)]) {}).2 ∧
    (∀ js,
      json.MarshalIndent
          (.object [("status_code", .int resp.status), ("error", resp.message)]) "" "  "
        = .ok js →
      (app.sendJSONError w r resp).w.calls
          = w.calls ++ [.WriteHeader resp.status, .Write (js ++ [10])] ∧
        (w.takes (js.length + 1) = true →
          (app.sendJSONError w r resp).w.body = w.body ++ js ++ [10])) ∧
    ((writeJSON w resp.status
          (.entries [("status_code", .int resp.status), ("error", resp.message)]) {}).1 = none →
      (app.sendJSONError w r resp).r.trace.HttpStatus = resp.status ∧
      (app.sendJSONError w r resp).r.trace.Message = resp.message ∧
      (app.sendJSONError w r resp).r.trace.Err = resp.err) ∧
    (∀ e, (writeJSON w resp.status
          (.entries [("status_code", .int resp.status), ("error", resp.message)]) {}).1 = some e →
      (app.sendJSONError w r resp).r.trace.HttpStatus = 500 ∧
      (app.sendJSONError w r resp).r.trace.Err = some e ∧
      (app.sendJSONError w r resp).r.trace.Message = resp.message) := by
  have hSend : ∀ out : Option Err × ResponseWriter,
      writeJSON w resp.status
        (.entries [("status_code", .int resp.status), ("error", resp.message)]) {} = out →
      (app.sendJSONError w r resp).w = out.2 ∧
      (out.1 = none →
        (app.sendJSONError w r resp).r.trace.HttpStatus = resp.status ∧
        (app.sendJSONError w r resp).r.trace.Message = resp.message ∧
        (app.sendJSONError w r resp).r.trace.Err = resp.err) ∧
      (∀ e, out.1 = some e →
        (app.sendJSONError w r resp).r.trace.HttpStatus = 500 ∧
        (app.sendJSONError w r resp).r.trace.Err = some e ∧
        (app.sendJSONError w r resp).r.trace.Message = resp.message) := by
    intro out hOut
    obtain ⟨err, w'⟩ := out
    unfold application.sendJSONError
    simp only [hOut]
    cases err <;>
      simp [tracing.TraceFromRequestCtx, http.StatusInternalServerError]
  obtain ⟨hW, hOk, hErr⟩ := hSend _ rfl
  refine ⟨hW, ?_, hOk, hErr⟩
  intro js hMarshal
  have h := writeJSON_calls_and_body w resp.status
    (.entries [("status_code", .int resp.status), ("error", resp.message)]) {} js hMarshal
  rw [hW]
  exact h

/-- Instance of C18: the response for a record that was not found, on a response writer
not used before. -/
theorem C18_sendJSONError_witness :
    json.MarshalIndent
        (.object [("status_code", .int 404), ("error", .str "not found")]) "" "  "
      = .ok (utf8 "\x7b\n  \"error\": \"not found\",\n  \"status_code\": 404\n\x7d".toList) ∧
    (application.sendJSONError {} {} sampleRequest notFoundResponse).w.calls
      = [] ++
        [ .WriteHeader 404,
          .Write
            (utf8 "\x7b\n  \"error\": \"not found\",\n  \"status_code\": 404\n\x7d".toList
              ++ [10]) ] ∧
    (application.sendJSONError {} {} sampleRequest notFoundResponse).w.body
      = [] ++ utf8 "\x7b\n  \"error\": \"not found\",\n  \"status_code\": 404\n\x7d".toList
          ++ [10] ∧
    (application.sendJSONError {} {} sampleRequest notFoundResponse).r.trace.HttpStatus
      = 404 ∧
    (application.sendJSONError {} {} sampleRequest notFoundResponse).r.trace.Message
      = .str "not found" ∧
    (application.sendJSONError {} {} sampleRequest notFoundResponse).r.trace.Err
      = some .ErrRecordNotFound :=
  have h := C18_sendJSONError {} {} sampleRequest notFoundResponse
  have hWritten := h.2.1
    (utf8 "\x7b\n  \"error\": \"not found\",\n  \"status_code\": 404\n\x7d".toList) rfl
  ⟨rfl, hWritten.1, hWritten.2 rfl, (h.2.2.1 rfl).1, (h.2.2.1 rfl).2.1, (h.2.2.1 rfl).2.2⟩

/-- C20: if the JSON encoding of the mapping fails, `writeJSON` returns the encoding error
and leaves the response writer as it was: no extra header is copied, `Content-Type` is
not set, no status and no body byte is written, no call is made on it; `sendJSON` then
leaves the same response writer and records `HttpStatus = 500` and the encoding error on
the trace record. -/
theorem C20_encoding_failure (app : application) (w : ResponseWriter) (r : Request)
    (status : Int) (data : env) (headers : Header) (e : Err)
    (hMarshal : json.MarshalIndent data.value "" "  " = .error e) :
    writeJSON w status data headers = (some e, w) ∧
    (app.sendJSON w r status data headers).w = w ∧
    (app.sendJSON w r status data headers).r.trace.HttpStatus = 500 ∧
    (app.sendJSON w r status data headers).r.trace.Err = some e := by
  have hWrite := writeJSON_not_encoded w status data headers e hMarshal
  refine ⟨hWrite, ?_, ?_, ?_⟩ <;>
    simp [application.sendJSON, hWrite, http.StatusInternalServerError]

/-- Instance of C20: a mapping that holds a channel, with extra headers, on a response
writer not used before. -/
theorem C20_encoding_failure_witness :
    json.MarshalIndent unencodable.value "" "  "
      = .error (.New "json: unsupported type: chan int") ∧
    writeJSON {} 200 unencodable sampleHeaders
      = (some (.New "json: unsupported type: chan int"), {}) ∧
    (application.sendJSON {} {} sampleRequest 200 unencodable sampleHeaders).w = {} ∧
    (application.sendJSON {} {} sampleRequest 200 unencodable sampleHeaders).r.trace.HttpStatus
      = 500 ∧
    (application.sendJSON {} {} sampleRequest 200 unencodable sampleHeaders).r.trace.Err
      = some (.New "json: unsupported type: chan int") :=
  ⟨rfl,
    C20_encoding_failure {} {} sampleRequest 200 unencodable sampleHeaders
      (.New "json: unsupported type: chan int") rfl⟩

end SnapVault
